import Mathlib

/-!
Verification development for the ont_fast5_api library (nanopore "fast5"
read containers).  The Python sources are shallowly embedded: pure logic
becomes Lean functions, stateful container operations become explicit
state passing over record types, fallible operations return
`Except String`.  HDF5 itself is an external collaborator; its relevant
semantics (exclusive dataset creation, name-ordered group iteration,
hard links as shared storage objects) are reflected in the state models
and documented at each definition.
-/

namespace OntFast5

/-- Catalog entry for one read, embedding `fast5_info.ReadInfo`.  The
constructor of the Python class initialises `has_raw_data`,
`has_event_data` and `event_data_count` to false/0; callers build the
record directly with those defaults. -/
structure ReadInfo where
  readNumber : Nat
  readId : String
  startTime : Int
  duration : Nat
  startMux : Int
  medianBefore : ℚ
  hasRawData : Bool
  hasEventData : Bool
  eventDataCount : Nat
deriving Repr, DecidableEq

/-- Builds a `ReadInfo` exactly as `ReadInfo.__init__` does: the three
presence fields start out false/0. -/
def mkReadInfo (readNumber : Nat) (readId : String) (startTime : Int) (duration : Nat)
    (mux : Int) (medianBefore : ℚ) : ReadInfo :=
  { readNumber := readNumber, readId := readId, startTime := startTime, duration := duration,
    startMux := mux, medianBefore := medianBefore,
    hasRawData := false, hasEventData := false, eventDataCount := 0 }

namespace Fast5File

/-- State of an open single-read container (`fast5_file.Fast5File`).
`readInfo` is `status.read_info`; the `status.read_number_map` dictionary
is kept consistent with the list by the source, so it is modelled by
index lookup (`readNumberIndex`).  `signal` maps a read number to the
`Raw/Reads/Read_<n>/Signal` dataset when present.  The channel
calibration attributes of `UniqueGlobalKey/channel_id` are embedded as
exact rationals (the Python floats are treated as exact arithmetic). -/
structure FileState where
  isOpen : Bool
  mode : String
  readInfo : List ReadInfo
  signal : Nat → Option (List Int)
  digitisation : ℚ
  chanRange : ℚ
  offset : ℚ

/-- Embeds the `status.read_number_map` lookup: the dictionary maps a
read number to its index in `read_info`. -/
def readNumberIndex (l : List ReadInfo) (n : Nat) : Option Nat :=
  l.findIdx? (fun ri => ri.readNumber == n)

/-- Embeds `AbstractFast5File.assert_open`. -/
def assertOpen (f : FileState) : Except String Unit :=
  if f.isOpen then .ok () else .error "Fast5 file is not open"

/-- Embeds `AbstractFast5File.assert_writeable`. -/
def assertWriteable (f : FileState) : Except String Unit := do
  assertOpen f
  if f.mode = "r" then .error "Fast5 file is in read-only mode" else .ok ()

/-- Embeds `Fast5File._save_raw`: creates the `Signal` dataset (HDF5
dataset creation is exclusive, so an existing dataset is an error) and
then sets the catalog entry's `has_raw_data` flag. -/
def saveRaw (f : FileState) (rn : Nat) (idx : Nat) (ri : ReadInfo) (data : List Int) :
    Except String FileState :=
  match f.signal rn with
  | some _ => .error "unable to create dataset"
  | none => .ok { f with signal := Function.update f.signal rn (some data),
                         readInfo := f.readInfo.set idx { ri with hasRawData := true } }

/-- Embeds `Fast5File.add_raw_data`: asserts writability, looks the read
up in the catalog, fails if raw data is already recorded, otherwise
saves the dataset and marks the flag. -/
def addRawData (f : FileState) (rn : Nat) (data : List Int) : Except String FileState := do
  assertWriteable f
  match readNumberIndex f.readInfo rn with
  | none => .error "KeyError read_number_map"
  | some idx =>
    match f.readInfo.get? idx with
    | none => .error "IndexError read_info"
    | some ri =>
      if ri.hasRawData then .error "Fast5 file already has raw data for read"
      else saveRaw f rn idx ri data

/-- Result of `get_raw_data`: 16-bit integer DAQ values, or scaled
floating-point values (modelled as exact rationals). -/
inductive RawData where
  | ints (samples : List Int)
  | floats (values : List ℚ)
deriving Repr, DecidableEq

/-- Python slice `l[s:e]` on a list. -/
def sliceList (l : List Int) (s e : Nat) : List Int := (l.drop s).take (e - s)

/-- Embeds `Fast5File._load_raw`.  The unscaled branch returns the raw
slice.  The scaled branch allocates a buffer of `e - s` entries and
assigns `scaling * (raw[s:e] + offset)` into it; the numpy assignment
broadcasts only when the slice has exactly `e - s` elements or exactly
one element, and otherwise raises. -/
def loadRaw (f : FileState) (rn : Nat) (s e : Nat) (scale : Bool) : Except String RawData :=
  match f.signal rn with
  | none => .error "KeyError raw dataset"
  | some raw =>
    if scale then
      let sl := sliceList raw s e
      if sl.length = e - s then
        .ok (.floats (sl.map (fun x => (f.chanRange / f.digitisation) * ((x : ℚ) + f.offset))))
      else
        match sl with
        | [x] => .ok (.floats (List.replicate (e - s)
            ((f.chanRange / f.digitisation) * ((x : ℚ) + f.offset))))
        | _ => .error "could not broadcast"
    else
      .ok (.ints (sliceList raw s e))

/-- Embeds `Fast5File._get_only_read_number`: `read_info[0].read_number`. -/
def getOnlyReadNumber (f : FileState) : Except String Nat :=
  match f.readInfo.head? with
  | some ri => .ok ri.readNumber
  | none => .error "IndexError read_info"

/-- Embeds `Fast5File.get_raw_data`: default read number is the sole
read's, default window is `[0, duration)` taken from the catalog entry,
and the catalog's `has_raw_data` flag gates access. -/
def getRawData (f : FileState) (readNumber start stop : Option Nat) (scale : Bool) :
    Except String RawData := do
  assertOpen f
  let rn ← match readNumber with
    | some n => pure n
    | none => getOnlyReadNumber f
  match readNumberIndex f.readInfo rn with
  | none => .error "KeyError read_number_map"
  | some idx =>
    match f.readInfo.get? idx with
    | none => .error "IndexError read_info"
    | some ri =>
      if ri.hasRawData then
        let e := stop.getD ri.duration
        let s := start.getD 0
        loadRaw f rn s e scale
      else .error "Fast5 file has no raw data for read"

/-- Embeds `Fast5File.get_read_id`: `status.read_info[0].read_id`. -/
def getReadId (f : FileState) : Except String String :=
  match f.readInfo.head? with
  | some ri => .ok ri.readId
  | none => .error "IndexError read_info"

/-- Embeds `Fast5File.get_read`: a mismatching id is a `KeyError`, a
matching id returns the container object itself as the read handle. -/
def getRead (f : FileState) (readId : String) : Except String FileState := do
  let rid ← getReadId f
  if readId ≠ rid then .error "KeyError read_id does not match"
  else .ok f

/-- Embeds `Fast5File.get_read_ids`: the one-element list holding the
sole read's id. -/
def getReadIds (f : FileState) : Except String (List String) := do
  let rid ← getReadId f
  .ok [rid]

end Fast5File

/-- A concrete single-read container with one read (number 12, recorded
duration 2) and no raw data yet; used to exhibit the duration-truncation
behaviour of `get_raw_data`. -/
def c3File : Fast5File.FileState :=
  { isOpen := true, mode := "r+",
    readInfo := [mkReadInfo 12 "snowflake" 0 2 0 (-1)],
    signal := fun _ => none,
    digitisation := 8192, chanRange := 8192, offset := 0 }

/-- C3 counterexample: writing the three samples `[1, 2, 3]` to a read
whose catalog duration is 2 and reading back unscaled returns `[1, 2]`,
not the samples that were written — `get_raw_data` defaults its window
end to the catalog duration, so the claim as stated fails. -/
theorem c3_counterexample :
    (Fast5File.addRawData c3File 12 [1, 2, 3]).bind
        (fun g => Fast5File.getRawData g none none none false) =
      .ok (.ints [1, 2]) ∧ ([1, 2] : List Int) ≠ [1, 2, 3] := by
  exact ⟨rfl, by decide⟩

/-- C3 (amended): for samples written by `add_raw_data` to a read
without prior raw data, `get_raw_data(scale=False)` returns exactly
those samples provided the catalog duration is at least the number of
samples (the default window end is the duration, so a smaller duration
truncates); and `get_raw_data(scale=True)` returns, elementwise,
`(range/digitisation) * (sample + offset)` with the calibration taken
from the container's channel metadata, provided the duration equals the
sample count (the scaled buffer is allocated with `duration` entries and
the assignment must broadcast). -/
theorem c3_raw_data_roundtrip (f : Fast5File.FileState) (rn : Nat) (ri : ReadInfo)
    (data : List Int)
    (hopen : f.isOpen = true) (hmode : f.mode ≠ "r")
    (hinfo : f.readInfo = [ri]) (hrn : ri.readNumber = rn)
    (hflag : ri.hasRawData = false) (hsig : f.signal rn = none) :
    ∀ g, Fast5File.addRawData f rn data = .ok g →
      (data.length ≤ ri.duration →
        Fast5File.getRawData g none none none false = .ok (.ints data)) ∧
      (ri.duration = data.length →
        Fast5File.getRawData g none none none true =
          .ok (.floats (data.map (fun x =>
            (f.chanRange / f.digitisation) * ((x : ℚ) + f.offset))))) := by
  intro g hg
  have hidx : Fast5File.readNumberIndex [ri] rn = some 0 := by
    simp [Fast5File.readNumberIndex, List.findIdx?, hrn]
  rw [Fast5File.addRawData] at hg
  simp [Fast5File.assertWriteable, Fast5File.assertOpen, hopen, if_neg hmode, hidx, hinfo,
    hflag, Fast5File.saveRaw, hsig, Bind.bind, Except.bind] at hg
  subst hg
  constructor
  · intro hlen
    simp [Fast5File.getRawData, Fast5File.assertOpen, hopen, Fast5File.getOnlyReadNumber,
      hrn, Fast5File.readNumberIndex, List.findIdx?, Fast5File.loadRaw,
      Fast5File.sliceList, List.take_of_length_le hlen, Bind.bind, Except.bind,
      Pure.pure, Function.update_same]
  · intro hdur
    simp [Fast5File.getRawData, Fast5File.assertOpen, hopen, Fast5File.getOnlyReadNumber,
      hrn, Fast5File.readNumberIndex, List.findIdx?, Fast5File.loadRaw,
      Fast5File.sliceList, hdur, List.take_of_length_le (le_refl data.length), Bind.bind,
      Except.bind, Pure.pure, Function.update_same]

/-- Concrete single-read container used as the C3 witness input. -/
def c3wFile : Fast5File.FileState :=
  { isOpen := true, mode := "r+",
    readInfo := [mkReadInfo 5 "w" 0 3 0 (-1)],
    signal := fun _ => none,
    digitisation := 10, chanRange := 15, offset := 2 }

/-- The state produced by writing samples `[5, 6, 7]` into `c3wFile`. -/
def c3wAfter : Fast5File.FileState :=
  { c3wFile with
    signal := Function.update c3wFile.signal 5 (some [5, 6, 7]),
    readInfo := [{ mkReadInfo 5 "w" 0 3 0 (-1) with hasRawData := true }] }

/-- Witness for C3: the round trip evaluated on a concrete container. -/
theorem c3_roundtrip_witness :
    Fast5File.getRawData c3wAfter none none none false = .ok (.ints [5, 6, 7]) ∧
    Fast5File.getRawData c3wAfter none none none true =
      .ok (.floats ([5, 6, 7].map (fun x => ((15 : ℚ) / 10) * ((x : ℚ) + 2)))) :=
  ⟨(c3_raw_data_roundtrip c3wFile 5 (mkReadInfo 5 "w" 0 3 0 (-1)) [5, 6, 7] rfl (by decide)
      rfl rfl rfl rfl c3wAfter rfl).1 (by decide),
   (c3_raw_data_roundtrip c3wFile 5 (mkReadInfo 5 "w" 0 3 0 (-1)) [5, 6, 7] rfl (by decide)
      rfl rfl rfl rfl c3wAfter rfl).2 rfl⟩

/-- C2: on an open writable single-read container, `add_raw_data` for a
read whose catalog entry already has `has_raw_data` fails with an error
(and, the operation being modelled as state-passing, produces no new
state, i.e. writes nothing); and any successful `add_raw_data` leaves
the catalog entry's `has_raw_data` flag true and the signal dataset
holding the written samples. -/
theorem c2_add_raw_data_at_most_once (f : Fast5File.FileState) (rn idx : Nat) (ri : ReadInfo)
    (data : List Int)
    (hopen : f.isOpen = true) (hmode : f.mode ≠ "r")
    (hidx : Fast5File.readNumberIndex f.readInfo rn = some idx)
    (hri : f.readInfo[idx]? = some ri) :
    (ri.hasRawData = true →
      Fast5File.addRawData f rn data = .error "Fast5 file already has raw data for read") ∧
    (∀ g, Fast5File.addRawData f rn data = .ok g →
      (∃ ri2, g.readInfo[idx]? = some ri2 ∧ ri2.hasRawData = true) ∧
        g.signal rn = some data) := by
  have hlt : idx < f.readInfo.length := by
    rcases List.getElem?_eq_some.mp hri with ⟨h, _⟩
    exact h
  constructor
  · intro hflag
    rw [Fast5File.addRawData]
    simp [Fast5File.assertWriteable, Fast5File.assertOpen, hopen, if_neg hmode, hidx, hri,
      hflag, Bind.bind, Except.bind]
  · intro g hg
    rw [Fast5File.addRawData] at hg
    cases hflag : ri.hasRawData with
    | true =>
      simp [Fast5File.assertWriteable, Fast5File.assertOpen, hopen, if_neg hmode, hidx, hri,
        hflag, Bind.bind, Except.bind] at hg
    | false =>
      cases hsig : f.signal rn with
      | some raw =>
        simp [Fast5File.assertWriteable, Fast5File.assertOpen, hopen, if_neg hmode, hidx,
          hri, hflag, hsig, Fast5File.saveRaw, Bind.bind, Except.bind] at hg
      | none =>
        simp [Fast5File.assertWriteable, Fast5File.assertOpen, hopen, if_neg hmode, hidx,
          hri, hflag, hsig, Fast5File.saveRaw, Bind.bind, Except.bind] at hg
        subst hg
        refine ⟨⟨{ ri with hasRawData := true }, ?_, rfl⟩, by simp [Function.update_same]⟩
        simp [List.getElem?_set_self hlt]

/-- Concrete container whose sole read already has raw data recorded. -/
def c2FileFull : Fast5File.FileState :=
  { isOpen := true, mode := "r+",
    readInfo := [{ mkReadInfo 7 "u" 0 4 0 (-1) with hasRawData := true }],
    signal := fun _ => some [9, 9, 9, 9],
    digitisation := 1, chanRange := 1, offset := 0 }

/-- Witness for C2: on a concrete container whose read already has raw
data, `add_raw_data` returns the error; on a concrete fresh container,
a successful write leaves the flag true. -/
theorem c2_add_raw_data_witness :
    Fast5File.addRawData c2FileFull 7 [1] =
        .error "Fast5 file already has raw data for read" ∧
    ((∃ ri2, c3wAfter.readInfo.get? 0 = some ri2 ∧ ri2.hasRawData = true) ∧
      c3wAfter.signal 5 = some [5, 6, 7]) :=
  ⟨(c2_add_raw_data_at_most_once c2FileFull 7 0 _ [1] rfl (by decide) rfl rfl).1 rfl,
   (c2_add_raw_data_at_most_once c3wFile 5 0 _ [5, 6, 7] rfl (by decide) rfl rfl).2
      c3wAfter rfl⟩

/-- C10: on a single-read container holding exactly one read,
`get_read` raises a KeyError for any id other than the sole read's id,
returns the container object itself when the id matches, and
`get_read_ids` returns exactly the one-element list of that id. -/
theorem c10_single_get_read (f : Fast5File.FileState) (ri : ReadInfo) (rid : String)
    (hinfo : f.readInfo = [ri]) :
    (rid ≠ ri.readId → Fast5File.getRead f rid = .error "KeyError read_id does not match") ∧
    Fast5File.getRead f ri.readId = .ok f ∧
    Fast5File.getReadIds f = .ok [ri.readId] := by
  refine ⟨fun hne => ?_, ?_, ?_⟩
  · simp [Fast5File.getRead, Fast5File.getReadId, hinfo, Bind.bind, Except.bind, hne]
  · simp [Fast5File.getRead, Fast5File.getReadId, hinfo, Bind.bind, Except.bind]
  · simp [Fast5File.getReadIds, Fast5File.getReadId, hinfo, Bind.bind, Except.bind]

/-- Witness for C10 on a concrete one-read container. -/
theorem c10_single_get_read_witness :
    Fast5File.getRead c3wFile "other" = .error "KeyError read_id does not match" ∧
    Fast5File.getRead c3wFile "w" = .ok c3wFile ∧
    Fast5File.getReadIds c3wFile = .ok ["w"] :=
  ⟨(c10_single_get_read c3wFile (mkReadInfo 5 "w" 0 3 0 (-1)) "other" rfl).1 (by decide),
   (c10_single_get_read c3wFile (mkReadInfo 5 "w" 0 3 0 (-1)) "other" rfl).2.1,
   (c10_single_get_read c3wFile (mkReadInfo 5 "w" 0 3 0 (-1)) "other" rfl).2.2⟩

/-! Byte-wise name ordering.  HDF5 (and therefore h5py) iterates the
children of a group in ascending name order by default — fast5 files do
not enable link-creation-order tracking — so every `handle` iteration in
the sources enumerates groups name-sorted.  The order is modelled by a
boolean byte-wise comparison and an insertion sort keyed by a name
function. -/

/-- Byte-wise (lexicographic) strict comparison of character lists. -/
def charListLt : List Char → List Char → Bool
  | [], [] => false
  | [], _ :: _ => true
  | _ :: _, [] => false
  | a :: as, b :: bs =>
    if a.toNat < b.toNat then true
    else if b.toNat < a.toNat then false
    else charListLt as bs

/-- Byte-wise strict comparison of strings (the HDF5 name order). -/
def strLt (a b : String) : Bool := charListLt a.toList b.toList

/-- Inserts `x` into a list sorted in ascending `strLt`-order of `key`. -/
def sortedInsertBy (key : α → String) (x : α) : List α → List α
  | [] => [x]
  | y :: ys => if strLt (key x) (key y) then x :: y :: ys else y :: sortedInsertBy key x ys

/-- Insertion sort in ascending `strLt`-order of `key` (the order in
which h5py enumerates the correspondingly named groups). -/
def sortBy (key : α → String) : List α → List α
  | [] => []
  | x :: xs => sortedInsertBy key x (sortBy key xs)

theorem charListLt_asymm : ∀ a b : List Char, charListLt a b = true → charListLt b a = false := by
  intro a
  induction a with
  | nil => intro b _; cases b <;> simp [charListLt]
  | cons x xs ih =>
    intro b hab
    cases b with
    | nil => simp [charListLt] at hab
    | cons y ys =>
      rw [charListLt] at hab ⊢
      by_cases hxy : x.toNat < y.toNat
      · have hyx : ¬ y.toNat < x.toNat := by omega
        simp [hxy, hyx]
      · by_cases hyx : y.toNat < x.toNat
        · simp [hxy, hyx] at hab
        · simp [hxy, hyx] at hab ⊢
          exact ih ys hab

theorem strLt_asymm (a b : String) (h : strLt a b = true) : strLt b a = false :=
  charListLt_asymm a.toList b.toList h

/-- The non-strict order corresponding to `strLt`: `a` is at most `b`
when `b` is not strictly before `a`. -/
def strLe (a b : String) : Prop := strLt b a = false

theorem sortedInsertBy_perm (key : α → String) (x : α) :
    ∀ l : List α, (sortedInsertBy key x l).Perm (x :: l) := by
  intro l
  induction l with
  | nil => simp [sortedInsertBy]
  | cons y ys ih =>
    rw [sortedInsertBy]
    by_cases h : strLt (key x) (key y) = true
    · simp [h]
    · simp [h]
      exact ((ih.cons y).trans (List.Perm.swap x y ys))

theorem sortBy_perm (key : α → String) : ∀ l : List α, (sortBy key l).Perm l := by
  intro l
  induction l with
  | nil => simp [sortBy]
  | cons x xs ih =>
    rw [sortBy]
    exact (sortedInsertBy_perm key x (sortBy key xs)).trans (ih.cons x)

theorem mem_sortBy (key : α → String) (l : List α) (x : α) :
    x ∈ sortBy key l ↔ x ∈ l :=
  (sortBy_perm key l).mem_iff

theorem charListLt_trans : ∀ a b c : List Char,
    charListLt a b = true → charListLt b c = true → charListLt a c = true := by
  intro a
  induction a with
  | nil =>
    intro b c hab hbc
    cases b with
    | nil => simp [charListLt] at hab
    | cons y ys =>
      cases c with
      | nil => simp [charListLt] at hbc
      | cons z zs => simp [charListLt]
  | cons x xs ih =>
    intro b c hab hbc
    cases b with
    | nil => simp [charListLt] at hab
    | cons y ys =>
      cases c with
      | nil => simp [charListLt] at hbc
      | cons z zs =>
        rw [charListLt] at hab hbc ⊢
        by_cases hxy : x.toNat < y.toNat
        · by_cases hyz : y.toNat < z.toNat
          · have : x.toNat < z.toNat := by omega
            simp [this]
          · by_cases hzy : z.toNat < y.toNat
            · simp [hyz, hzy] at hbc
            · have : x.toNat < z.toNat := by omega
              simp [this]
        · by_cases hyx : y.toNat < x.toNat
          · simp [hxy, hyx] at hab
          · simp [hxy, hyx] at hab
            by_cases hyz : y.toNat < z.toNat
            · have : x.toNat < z.toNat := by omega
              simp [this]
            · by_cases hzy : z.toNat < y.toNat
              · simp [hyz, hzy] at hbc
              · simp [hyz, hzy] at hbc
                have hxz : ¬ x.toNat < z.toNat := by omega
                have hzx : ¬ z.toNat < x.toNat := by omega
                simp [hxz, hzx]
                exact ih ys zs hab hbc

theorem strLt_trans (a b c : String) (hab : strLt a b = true) (hbc : strLt b c = true) :
    strLt a c = true :=
  charListLt_trans a.toList b.toList c.toList hab hbc

theorem sortedInsertBy_sorted (key : α → String) (x : α) (l : List α)
    (hl : l.Sorted (fun a b => strLe (key a) (key b))) :
    (sortedInsertBy key x l).Sorted (fun a b => strLe (key a) (key b)) := by
  induction l with
  | nil => simp [sortedInsertBy]
  | cons y ys ih =>
    rcases List.sorted_cons.mp hl with ⟨hy, hys⟩
    rw [sortedInsertBy]
    by_cases h : strLt (key x) (key y) = true
    · rw [if_pos h]
      refine List.sorted_cons.mpr ⟨?_, hl⟩
      intro z hz
      rcases List.mem_cons.mp hz with hz | hz
      · subst hz
        exact strLt_asymm _ _ h
      · show strLt (key z) (key x) = false
        cases hzx : strLt (key z) (key x) with
        | false => rfl
        | true =>
          have : strLt (key z) (key y) = true := strLt_trans _ _ _ hzx h
          have hyz : strLe (key y) (key z) := hy z hz
          rw [strLe] at hyz
          rw [hyz] at this
          exact absurd this (by simp)
    · rw [if_neg h]
      refine List.sorted_cons.mpr ⟨?_, ih hys⟩
      intro z hz
      rcases List.mem_cons.mp ((sortedInsertBy_perm key x ys).mem_iff.mp hz) with hz | hz
      · subst hz
        show strLt (key z) (key y) = false
        exact Bool.eq_false_iff.mpr h
      · exact hy z hz

theorem sortBy_sorted (key : α → String) :
    ∀ l : List α, (sortBy key l).Sorted (fun a b => strLe (key a) (key b)) := by
  intro l
  induction l with
  | nil => simp [sortBy]
  | cons x xs ih =>
    rw [sortBy]
    exact sortedInsertBy_sorted key x (sortBy key xs) ih

/-- Updates the binding of `k` in an association list modelling a
Python dict assignment `m[k] = v` (existing key keeps its position, a
new key is appended). -/
def upsertA [DecidableEq κ] (m : List (κ × β)) (k : κ) (v : β) : List (κ × β) :=
  match m with
  | [] => [(k, v)]
  | (k2, v2) :: rest => if k2 = k then (k2, v) :: rest else (k2, v2) :: upsertA rest k v

/-- Python dict lookup `m[k]` on the association-list model. -/
def lookupA [DecidableEq κ] (m : List (κ × β)) (k : κ) : Option β :=
  match m with
  | [] => none
  | (k2, v2) :: rest => if k2 = k then some v2 else lookupA rest k

theorem lookupA_upsertA_self [DecidableEq κ] (m : List (κ × β)) (k : κ) (v : β) :
    lookupA (upsertA m k v) k = some v := by
  induction m with
  | nil => simp [upsertA, lookupA]
  | cons p rest ih =>
    rcases p with ⟨k2, v2⟩
    rw [upsertA]
    by_cases h : k2 = k
    · simp [lookupA, h]
    · simp [lookupA, h, ih]

namespace MultiF5

/-- State of an open multi-read container (`multi_fast5.MultiFast5File`).
`reads` lists the read ids whose `read_<id>` groups exist, in the order
the groups were created.  Hard links are modelled through abstract
storage-object identities: `sub rid g` is the object id behind subgroup
`g` (`"context_tags"` or `"tracking_id"`) of read `rid`, so a hard link
makes two reads map to the same object id.  `objRun` is the `run_id`
attribute stored on a tracking-id object (what `Fast5Read.run_id`
reads); `groupRun` is the `run_id` attribute that `create_empty_read`
writes on the read group itself.  `cache` is the lazily built
`_run_id_map`. -/
structure MState where
  reads : List String
  sub : String → String → Option Nat
  objRun : Nat → Option String
  groupRun : String → Option String
  cache : Option (List (String × String))

/-- Embeds the `Fast5Read.run_id` property: the `run_id` attribute of
the read's tracking-id storage object (a `KeyError`, modelled as
`none`, when the subgroup or the attribute is missing). -/
def runIdOf (st : MState) (rid : String) : Option String :=
  (st.sub rid "tracking_id").bind st.objRun

/-- Embeds the loop body of `MultiFast5File.run_id_map`: scans
`get_reads()` (name order) and records `map[read.run_id] = read.read_id`,
skipping reads whose `run_id` lookup raises. -/
def buildRunIdMap (st : MState) : List (String × String) :=
  (sortBy id st.reads).foldl
    (fun m rid =>
      match runIdOf st rid with
      | some run => upsertA m run rid
      | none => m) []

/-- Embeds the lazy `run_id_map` property: returns the cached map or
builds and caches it. -/
def getRunIdMap (st : MState) : MState × List (String × String) :=
  match st.cache with
  | some m => (st, m)
  | none =>
    let m := buildRunIdMap st
    ({ st with cache := some m }, m)

/-- Records `run_id_map[run] = rid` into the (already materialised)
cached map, as the `except KeyError` branch of `create_empty_read`
does. -/
def registerRunId (st : MState) (m : List (String × String)) (run rid : String) : MState :=
  { st with cache := some (upsertA m run rid) }

/-- Links subgroup `g` of read `rid` to storage object `o`
(`self.handle[dest] = self.handle[source]`, an HDF5 hard link). -/
def linkSub (st : MState) (rid g : String) (o : Nat) : MState :=
  { st with sub := fun r g2 => if r = rid ∧ g2 = g then some o else st.sub r g2 }

/-- Writes the `run_id` attribute on the read group itself. -/
def setGroupRun (st : MState) (rid run : String) : MState :=
  { st with groupRun := Function.update st.groupRun rid (some run) }

/-- Embeds `MultiFast5File.create_empty_read`.  An existing read id is
an error.  Otherwise the empty group is created first, then the
hardlink loop over `HARDLINK_GROUPS = ("context_tags", "tracking_id")`
links both subgroups to the run's recorded sharer; any `KeyError`
(run id not in the map, or the sharer lacking the subgroup) aborts the
loop and instead registers this read as the run's new source of
record.  The `run_id` group attribute is written in all success
paths. -/
def createEmptyRead (st : MState) (rid run : String) : Except String MState :=
  if rid ∈ st.reads then .error "Read already exists in file"
  else
    let st1 : MState := { st with reads := st.reads ++ [rid] }
    let built := getRunIdMap st1
    let st2 := built.1
    let m := built.2
    match lookupA m run with
    | none => .ok (setGroupRun (registerRunId st2 m run rid) rid run)
    | some src =>
      match st2.sub src "context_tags" with
      | none => .ok (setGroupRun (registerRunId st2 m run rid) rid run)
      | some o1 =>
        let st3 := linkSub st2 rid "context_tags" o1
        match st3.sub src "tracking_id" with
        | none => .ok (setGroupRun (registerRunId st3 m run rid) rid run)
        | some o2 => .ok (setGroupRun (linkSub st3 rid "tracking_id" o2) rid run)

/-- Embeds `MultiFast5File.get_read_ids`: every group named
`read_<id>`, with the prefix stripped; the handle enumerates groups in
ascending name order, which (all read groups sharing the `read_`
prefix) is ascending id order. -/
def getReadIdsM (st : MState) : List String :=
  sortBy id st.reads

/-- Embeds `MultiFast5File.get_read`: a `KeyError` when the group
`read_<id>` is absent, otherwise the `Fast5Read` handle (identified
here by its read id). -/
def getReadM (st : MState) (rid : String) : Except String String :=
  if ("read_" ++ rid) ∈ st.reads.map (fun r => "read_" ++ r) then .ok rid
  else .error "KeyError Read not in file"

theorem getRunIdMap_sub (st : MState) : ((getRunIdMap st).1).sub = st.sub := by
  rw [getRunIdMap]
  cases st.cache <;> rfl

theorem getRunIdMap_cache (st : MState) : ((getRunIdMap st).1).cache = some (getRunIdMap st).2 := by
  rw [getRunIdMap]
  cases hc : st.cache <;> simp [hc]

end MultiF5

/-- C5: in a multi-read container, `create_empty_read` with a `run_id`
whose (lazily resolved) sharer read carries both hardlinkable metadata
groups links the new read's tracking-id and context-tags groups to the
identical storage objects as the sharer's (not copies); with a `run_id`
absent from the container's run-id map the call still succeeds, the new
read keeps its own (unlinked) metadata slots, and it is registered as
the hardlink source of record for that `run_id` for subsequent reads.
The map is resolved on the state that already contains the new empty
group, as the source builds it after `create_group`. -/
theorem c5_create_empty_read_hardlink (st : MultiF5.MState) (rid run src : String)
    (hnew : rid ∉ st.reads) :
    (∀ o1 o2,
      lookupA (MultiF5.getRunIdMap { st with reads := st.reads ++ [rid] }).2 run = some src →
      st.sub src "context_tags" = some o1 →
      st.sub src "tracking_id" = some o2 →
      ∃ st2, MultiF5.createEmptyRead st rid run = .ok st2 ∧
        st2.sub rid "context_tags" = some o1 ∧ st2.sub src "context_tags" = some o1 ∧
        st2.sub rid "tracking_id" = some o2 ∧ st2.sub src "tracking_id" = some o2 ∧
        st2.groupRun rid = some run) ∧
    (lookupA (MultiF5.getRunIdMap { st with reads := st.reads ++ [rid] }).2 run = none →
      ∃ st2, MultiF5.createEmptyRead st rid run = .ok st2 ∧
        st2.sub rid "context_tags" = st.sub rid "context_tags" ∧
        st2.sub rid "tracking_id" = st.sub rid "tracking_id" ∧
        st2.groupRun rid = some run ∧
        ∃ m2, st2.cache = some m2 ∧ lookupA m2 run = some rid) := by
  have hsub : ((MultiF5.getRunIdMap { st with reads := st.reads ++ [rid] }).1).sub = st.sub :=
    MultiF5.getRunIdMap_sub _
  constructor
  · intro o1 o2 hmap h1 h2
    rw [MultiF5.createEmptyRead, if_neg hnew]
    simp only [hmap, hsub, h1, MultiF5.linkSub, hsub, h2]
    by_cases hsr : src = rid
    · subst hsr
      simp only [h2]
      refine ⟨_, rfl, ?_⟩
      simp [MultiF5.setGroupRun, Function.update_same, h1, h2]
    · have hx : ¬ (src = rid ∧ "tracking_id" = "context_tags") := by
        intro hcon
        exact hsr hcon.1
      simp only [if_neg hx, hsub, h2]
      refine ⟨_, rfl, ?_⟩
      simp [MultiF5.setGroupRun, Function.update_same, hsr, h1, h2]
  · intro hmap
    rw [MultiF5.createEmptyRead, if_neg hnew]
    simp only [hmap]
    refine ⟨_, rfl, ?_⟩
    refine ⟨congrFun (congrFun hsub rid) "context_tags",
      congrFun (congrFun hsub rid) "tracking_id",
      by simp [MultiF5.setGroupRun, Function.update_same], ?_⟩
    refine ⟨upsertA (MultiF5.getRunIdMap { st with reads := st.reads ++ [rid] }).2 run rid,
      ?_, lookupA_upsertA_self _ _ _⟩
    simp [MultiF5.setGroupRun, MultiF5.registerRunId]

/-- A concrete multi-read container state shared by the C5 witness:
one read `b` of run `r1` whose metadata groups are objects 1 and 2. -/
def c5St : MultiF5.MState :=
  { reads := ["b"],
    sub := fun r g =>
      if r = "b" ∧ g = "context_tags" then some 1
      else if r = "b" ∧ g = "tracking_id" then some 2
      else none,
    objRun := fun o => if o = 2 then some "r1" else none,
    groupRun := fun r => if r = "b" then some "r1" else none,
    cache := none }

/-- Witness for C5: creating read `a` with the existing run `r1` links
both metadata groups to read `b`'s objects; creating read `c` with the
fresh run `r9` succeeds unlinked and becomes the run's source of
record. -/
theorem c5_create_empty_read_witness :
    (∃ st2, MultiF5.createEmptyRead c5St "a" "r1" = .ok st2 ∧
      st2.sub "a" "context_tags" = some 1 ∧ st2.sub "b" "context_tags" = some 1 ∧
      st2.sub "a" "tracking_id" = some 2 ∧ st2.sub "b" "tracking_id" = some 2 ∧
      st2.groupRun "a" = some "r1") ∧
    (∃ st2, MultiF5.createEmptyRead c5St "c" "r9" = .ok st2 ∧
      st2.sub "c" "context_tags" = c5St.sub "c" "context_tags" ∧
      st2.sub "c" "tracking_id" = c5St.sub "c" "tracking_id" ∧
      st2.groupRun "c" = some "r9" ∧
      ∃ m2, st2.cache = some m2 ∧ lookupA m2 "r9" = some "c") :=
  ⟨((c5_create_empty_read_hardlink c5St "a" "r1" "b" (by decide)).1 1 2 (by decide)
      (by decide) (by decide)),
   ((c5_create_empty_read_hardlink c5St "c" "r9" "b" (by decide)).2 (by decide))⟩

/-- The empty multi-read container. -/
def c9Empty : MultiF5.MState :=
  { reads := [], sub := fun _ _ => none, objRun := fun _ => none,
    groupRun := fun _ => none, cache := none }

/-- C9 counterexample: after creating read `b` and then read `a` in an
empty container, the insertion order is `["b", "a"]` but
`get_read_ids` enumerates `["a", "b"]` — the storage engine iterates
groups in name order, not insertion order, so the enumeration-order
part of the claim fails. -/
theorem c9_counterexample :
    ((MultiF5.createEmptyRead c9Empty "b" "r1").bind
        (fun st => MultiF5.createEmptyRead st "a" "r2")).map
        (fun st => (st.reads, MultiF5.getReadIdsM st)) =
      .ok (["b", "a"], ["a", "b"]) ∧ (["a", "b"] : List String) ≠ ["b", "a"] :=
  ⟨rfl, by decide⟩

/-- C9 (amended): `get_read` fails with a KeyError exactly when the
read id is absent; `get_reads`/`get_read_ids` enumerate a permutation
of the container's reads in ascending byte-wise name order (the
storage engine's default iteration order), which coincides with
insertion order only when reads were inserted in name order. -/
theorem c9_multi_get_read_enumeration (st : MultiF5.MState) (rid : String) :
    (rid ∉ st.reads → MultiF5.getReadM st rid = .error "KeyError Read not in file") ∧
    (rid ∈ st.reads → MultiF5.getReadM st rid = .ok rid) ∧
    (MultiF5.getReadIdsM st).Perm st.reads ∧
    (MultiF5.getReadIdsM st).Sorted (fun a b => strLe a b) := by
  refine ⟨?_, ?_, sortBy_perm id st.reads, sortBy_sorted id st.reads⟩
  · intro habs
    rw [MultiF5.getReadM, if_neg]
    intro hmem
    rcases List.mem_map.mp hmem with ⟨r, hr, heq⟩
    have : r = rid := by
      have hdata : ("read_" ++ r).data = ("read_" ++ rid).data := by rw [heq]
      simp only [String.data_append] at hdata
      have := List.append_cancel_left hdata
      exact String.ext this
    exact habs (this ▸ hr)
  · intro hmem
    rw [MultiF5.getReadM, if_pos]
    exact List.mem_map.mpr ⟨rid, hmem, rfl⟩

/-- Witness for C9 on a concrete container with reads inserted as
`b` then `a`. -/
theorem c9_multi_get_read_witness :
    MultiF5.getReadM { c9Empty with reads := ["b", "a"] } "zz" =
        .error "KeyError Read not in file" ∧
    MultiF5.getReadM { c9Empty with reads := ["b", "a"] } "a" = .ok "a" ∧
    (MultiF5.getReadIdsM { c9Empty with reads := ["b", "a"] }).Perm ["b", "a"] :=
  ⟨(c9_multi_get_read_enumeration { c9Empty with reads := ["b", "a"] } "zz").1 (by decide),
   (c9_multi_get_read_enumeration { c9Empty with reads := ["b", "a"] } "a").2.1 (by decide),
   (c9_multi_get_read_enumeration { c9Empty with reads := ["b", "a"] } "a").2.2.1⟩

namespace Sanitise

/-- One field of a numpy structured dtype, as `data.dtype.fields`
exposes it: the field's name, its `kind` character (`'U'` unicode text,
`'S'` byte text, or a numeric kind), its `itemsize` in bytes, its
`alignment`, and its `descr` string (for example `"<U5"`, `"|S3"`,
`"<i4"`).  A `'U'` field of `n` characters has itemsize `4 * n` and
alignment 4, so `itemsize / alignment` is the character count. -/
structure NpField where
  name : String
  kind : Char
  itemsize : Nat
  alignment : Nat
  descr : String
deriving Repr, DecidableEq

/-- Embeds the per-field body of the struct-array branch of
`fast5_file._sanitize_data_for_writing`, which works on the
`(name, descr)` pairs of `data.dtype.descr`: a `'<U'` descr whose width
part is empty or `"0"` raises a TypeError; any other `'<U'` descr is
remapped to `'|S'` with the same width; other fields pass through. -/
def f5fEncodeField (entry : String × String) : Except String (String × String) :=
  if entry.2.toList.take 2 = ['<', 'U'] then
    if entry.2.toList.length ≤ 2 ∨
        (entry.2.toList.length = 3 ∧ entry.2.toList.drop 2 = ['0']) then
      .error "TypeError Empty datafield cannot be converted by np.astype"
    else .ok (entry.1, String.mk ('|' :: 'S' :: entry.2.toList.drop 2))
  else .ok entry

/-- Embeds the per-field body of the struct-array branch of
`fast5_file._sanitize_data_for_reading`: the mirror image, remapping
`'|S'` descrs to `'<U'` and raising on a zero/empty width. -/
def f5fDecodeField (entry : String × String) : Except String (String × String) :=
  if entry.2.toList.take 2 = ['|', 'S'] then
    if entry.2.toList.length ≤ 2 ∨
        (entry.2.toList.length = 3 ∧ entry.2.toList.drop 2 = ['0']) then
      .error "TypeError Empty datafield cannot be converted by np.astype"
    else .ok (entry.1, String.mk ('<' :: 'U' :: entry.2.toList.drop 2))
  else .ok entry

/-- Runs a per-field sanitiser over a struct array's field list; a
raised error anywhere aborts the whole conversion, as the Python
exception does. -/
def sanitiseFields (enc : String × String → Except String (String × String)) :
    List (String × String) → Except String (List (String × String))
  | [] => .ok []
  | e :: rest =>
    match enc e with
    | .error msg => .error msg
    | .ok e2 =>
      match sanitiseFields enc rest with
      | .error msg => .error msg
      | .ok rest2 => .ok (e2 :: rest2)

/-- The struct-array branch of `fast5_file._sanitize_data_for_writing`
(encode-for-storage over the dtype fields). -/
def f5fSanitiseWritingDtypes (dtypes : List (String × String)) :
    Except String (List (String × String)) :=
  sanitiseFields f5fEncodeField dtypes

/-- The struct-array branch of `fast5_file._sanitize_data_for_reading`
(decode-for-presentation over the dtype fields). -/
def f5fSanitiseReadingDtypes (dtypes : List (String × String)) :
    Except String (List (String × String)) :=
  sanitiseFields f5fDecodeField dtypes

/-- Embeds the per-field remap of the struct-array branch of
`data_sanitisation._sanitize_data_for_writing`: a `'U'` field is
remapped to a byte dtype `"|S" ++ (itemsize / alignment)` with no
zero-width check; other fields keep their descr.  The function is
total: it raises no type error itself. -/
def dsEncodeField (f : NpField) : String × String :=
  if f.kind = 'U' then (f.name, "|S" ++ toString (f.itemsize / f.alignment))
  else (f.name, f.descr)

/-- Embeds the per-field remap of the struct-array branch of
`data_sanitisation._sanitize_data_for_reading`: an `'S'` field is
remapped to `"<U" ++ itemsize` with no zero-width check. -/
def dsDecodeField (f : NpField) : String × String :=
  if f.kind = 'S' then (f.name, "<U" ++ toString f.itemsize)
  else (f.name, f.descr)

/-- The struct-array branch of
`data_sanitisation._sanitize_data_for_writing` over the field list. -/
def dsSanitiseWritingDtypes (fields : List NpField) : List (String × String) :=
  fields.map dsEncodeField

/-- The struct-array branch of
`data_sanitisation._sanitize_data_for_reading` over the field list. -/
def dsSanitiseReadingDtypes (fields : List NpField) : List (String × String) :=
  fields.map dsDecodeField

theorem f5fEncodeField_error_eq (e : String × String) (msg : String)
    (h : f5fEncodeField e = .error msg) :
    msg = "TypeError Empty datafield cannot be converted by np.astype" := by
  rw [f5fEncodeField] at h
  by_cases h1 : e.2.toList.take 2 = ['<', 'U']
  · rw [if_pos h1] at h
    by_cases h2 : e.2.toList.length ≤ 2 ∨ (e.2.toList.length = 3 ∧ e.2.toList.drop 2 = ['0'])
    · rw [if_pos h2] at h
      exact (Except.error.inj h).symm
    · rw [if_neg h2] at h
      exact absurd h (by simp)
  · rw [if_neg h1] at h
    exact absurd h (by simp)

theorem f5fDecodeField_error_eq (e : String × String) (msg : String)
    (h : f5fDecodeField e = .error msg) :
    msg = "TypeError Empty datafield cannot be converted by np.astype" := by
  rw [f5fDecodeField] at h
  by_cases h1 : e.2.toList.take 2 = ['|', 'S']
  · rw [if_pos h1] at h
    by_cases h2 : e.2.toList.length ≤ 2 ∨ (e.2.toList.length = 3 ∧ e.2.toList.drop 2 = ['0'])
    · rw [if_pos h2] at h
      exact (Except.error.inj h).symm
    · rw [if_neg h2] at h
      exact absurd h (by simp)
  · rw [if_neg h1] at h
    exact absurd h (by simp)

theorem f5fEncodeField_zeroU (nm : String) :
    f5fEncodeField (nm, "<U0") =
      .error "TypeError Empty datafield cannot be converted by np.astype" := rfl

theorem f5fDecodeField_zeroS (nm : String) :
    f5fDecodeField (nm, "|S0") =
      .error "TypeError Empty datafield cannot be converted by np.astype" := rfl

theorem sanitiseFields_error_of_mem
    (enc : String × String → Except String (String × String)) (msg : String)
    (hmsg : ∀ e m, enc e = .error m → m = msg)
    (bad : String × String) (hbad : ∀ v, enc bad ≠ .ok v) :
    ∀ dtypes : List (String × String), bad ∈ dtypes →
      sanitiseFields enc dtypes = .error msg := by
  intro dtypes
  induction dtypes with
  | nil => intro h; exact absurd h (List.not_mem_nil bad)
  | cons e rest ih =>
    intro hmem
    rw [sanitiseFields]
    rcases List.mem_cons.mp hmem with heq | hmem2
    · subst heq
      cases henc : enc bad with
      | error m => rw [hmsg bad m henc]
      | ok v => exact absurd henc (hbad v)
    · cases henc : enc e with
      | error m => rw [hmsg e m henc]
      | ok v => rw [ih hmem2]

end Sanitise

/-- C8 counterexample: the `data_sanitisation` module's encode and
decode functions, given a struct array with a zero-width text field,
do not raise a type error — they remap the field to a zero-width
target dtype (`|S0` on encode, `<U0` on decode) and return normally,
leaving the cast to the storage layer.  Only the legacy copies in
`fast5_file.py` raise.  (The repo's own test
`test_sanitise_array_empty_string` confirms the module encodes an
empty-string field without raising.) -/
theorem c8_counterexample :
    Sanitise.dsSanitiseWritingDtypes
        [{ name := "base", kind := 'U', itemsize := 0, alignment := 4, descr := "<U0" },
         { name := "length", kind := 'i', itemsize := 4, alignment := 4, descr := "<i4" }] =
      [("base", "|S0"), ("length", "<i4")] ∧
    Sanitise.dsSanitiseReadingDtypes
        [{ name := "base", kind := 'S', itemsize := 0, alignment := 1, descr := "|S0" },
         { name := "length", kind := 'i', itemsize := 4, alignment := 4, descr := "<i4" }] =
      [("base", "<U0"), ("length", "<i4")] := by
  exact ⟨rfl, rfl⟩

/-- C8 (amended): the single-read file model's copies of the
sanitisation functions (`fast5_file._sanitize_data_for_writing` and
`_sanitize_data_for_reading`) raise a type error whenever a struct
array's field list contains a zero-width text field (`"<U0"` when
encoding, `"|S0"` when decoding); the `data_sanitisation` module's
copies perform no zero-width check and instead remap such a field to a
zero-width target dtype without raising. -/
theorem c8_zero_width_sanitisation (dtypes : List (String × String))
    (fields : List Sanitise.NpField) (n : String) :
    ((n, "<U0") ∈ dtypes →
      Sanitise.f5fSanitiseWritingDtypes dtypes =
        .error "TypeError Empty datafield cannot be converted by np.astype") ∧
    ((n, "|S0") ∈ dtypes →
      Sanitise.f5fSanitiseReadingDtypes dtypes =
        .error "TypeError Empty datafield cannot be converted by np.astype") ∧
    (∀ al, { name := n, kind := 'U', itemsize := 0, alignment := al,
             descr := "<U0" : Sanitise.NpField } ∈ fields →
      (n, "|S0") ∈ Sanitise.dsSanitiseWritingDtypes fields) := by
  refine ⟨?_, ?_, ?_⟩
  · intro hmem
    refine Sanitise.sanitiseFields_error_of_mem Sanitise.f5fEncodeField _
      Sanitise.f5fEncodeField_error_eq (n, "<U0") ?_ dtypes hmem
    intro v h
    rw [Sanitise.f5fEncodeField_zeroU n] at h
    cases h
  · intro hmem
    refine Sanitise.sanitiseFields_error_of_mem Sanitise.f5fDecodeField _
      Sanitise.f5fDecodeField_error_eq (n, "|S0") ?_ dtypes hmem
    intro v h
    rw [Sanitise.f5fDecodeField_zeroS n] at h
    cases h
  · intro al hmem
    rw [Sanitise.dsSanitiseWritingDtypes]
    refine List.mem_map.mpr ⟨_, hmem, ?_⟩
    show (n, "|S" ++ toString ((0 : Nat) / al)) = (n, "|S0")
    rw [Nat.zero_div]
    exact congrArg (Prod.mk n) (by decide)

/-- Witness for C8 at a concrete two-field dtype. -/
theorem c8_zero_width_witness :
    Sanitise.f5fSanitiseWritingDtypes [("base", "<U0"), ("length", "<i4")] =
        .error "TypeError Empty datafield cannot be converted by np.astype" ∧
    Sanitise.f5fSanitiseReadingDtypes [("base", "|S0"), ("length", "<i4")] =
        .error "TypeError Empty datafield cannot be converted by np.astype" ∧
    ("base", "|S0") ∈ Sanitise.dsSanitiseWritingDtypes
        [{ name := "base", kind := 'U', itemsize := 0, alignment := 4, descr := "<U0" }] :=
  ⟨(c8_zero_width_sanitisation [("base", "<U0"), ("length", "<i4")] [] "base").1 (by decide),
   (c8_zero_width_sanitisation [("base", "|S0"), ("length", "<i4")] [] "base").2.1 (by decide),
   (c8_zero_width_sanitisation [("x", "<i4")]
      [{ name := "base", kind := 'U', itemsize := 0, alignment := 4, descr := "<U0" }]
      "base").2.2 4 (by decide)⟩

namespace Compress

/-- A registered codec (`compression_settings.AbstractCompression`
subclass): its canonical repr name (`str(compression_object)`), the key
under which the storage layer reports its filter (`str(self.compression)`
— the numeric filter id for vbz, the name string for gzip), and its
parameter tuple. -/
structure Compression where
  reprName : String
  filterKey : String
  opts : List Nat
deriving Repr, DecidableEq

/-- `VbzCompression`: repr "vbz", filter id 32020, opts
(VBZ_VERSION, VBZ_PACKING, VBZ_ZIG_ZAG, VBZ_ZSTD_COMPRESSION). -/
def VBZ : Compression := { reprName := "vbz", filterKey := "32020", opts := [1, 2, 1, 1] }

/-- `VbzCompressionV0`: repr "vbz_legacy_v0", filter id 32020, version 0 opts. -/
def VBZ_V0 : Compression :=
  { reprName := "vbz_legacy_v0", filterKey := "32020", opts := [0, 2, 1, 1] }

/-- `GzipCompression`: repr "gzip" (the inherited repr returns
`self.compression`), filter key "gzip", level 1. -/
def GZIP : Compression := { reprName := "gzip", filterKey := "gzip", opts := [1] }

/-- `filter_settings`: the one-entry dict keyed by `str(self.compression)`. -/
def filterSettings (c : Compression) : List (String × List Nat) := [(c.filterKey, c.opts)]

/-- Embeds `check_file_compression.check_read_compression`: matches the
read's on-disk filter dict against every registered codec's
`filter_settings` in `COMPRESSION_MAP` order (vbz, vbz_legacy_v0,
gzip); `none` models returning the unrecognised raw filter dict. -/
def checkReadCompression (filters : List (String × List Nat)) : Option Compression :=
  if filterSettings VBZ = filters then some VBZ
  else if filterSettings VBZ_V0 = filters then some VBZ_V0
  else if filterSettings GZIP = filters then some GZIP
  else none

/-- What happens to one subtree of a read while it is copied into a
multi-read output. -/
inductive SubAction where
  | skipped
  | reencoded
  | hardlinked
  | copied
deriving Repr, DecidableEq

/-- `static_data.OPTIONAL_READ_GROUPS`. -/
def OPTIONAL_READ_GROUPS : List String := ["Analyses"]

/-- `static_data.HARDLINK_GROUPS`. -/
def HARDLINK_GROUPS : List String := ["context_tags", "tracking_id"]

/-- Embeds the per-subgroup dispatch of
`MultiFast5File._add_read_from_multi`: sanitised optional groups are
skipped; the `Raw` group is re-encoded through `add_raw_data` exactly
when a target codec is given and its repr name (`str(target)`) is not a
key of the read's on-disk filter dict; hardlinkable groups are linked
when the run id already has a registered sharer whose group exists;
everything else falls back to a verbatim `copy`. -/
def targetMissingFromFilters (target : Option Compression)
    (filterKeys : List String) : Bool :=
  match target with
  | some t => decide (t.reprName ∉ filterKeys)
  | none => false

def addReadFromMultiAction (sanitize : Bool) (target : Option Compression)
    (filterKeys : List String) (runIdInMap sharerGroupExists : Bool)
    (subgroup : String) : SubAction :=
  if sanitize ∧ subgroup ∈ OPTIONAL_READ_GROUPS then .skipped
  else if subgroup = "Raw" ∧ targetMissingFromFilters target filterKeys = true then .reencoded
  else if subgroup ∈ HARDLINK_GROUPS then
    if runIdInMap ∧ sharerGroupExists then .hardlinked else .copied
  else .copied

/-- Which top-level path `compress_single_read` takes: a verbatim copy
of the whole read subtree when `str(target_compression)` is a key of
the read's filter dict, otherwise the per-subgroup loop. -/
inductive SinglePath where
  | wholeCopy
  | perSubgroup
deriving Repr, DecidableEq

/-- Embeds the top-level branch of `compress_fast5.compress_single_read`. -/
def compressSingleReadPath (target : Compression) (filterKeys : List String) : SinglePath :=
  if target.reprName ∈ filterKeys then .wholeCopy else .perSubgroup

/-- The raw dataset path of a single-read file
(`Raw/Reads/Read_<n>/Signal`). -/
def rawDatasetNameSingle (rn : Nat) : String :=
  "Raw/Reads/Read_" ++ toString rn ++ "/Signal"

/-- Embeds the per-subgroup loop body of `compress_single_read` (taken
on the `perSubgroup` path): a subgroup whose name is NOT a substring of
the raw dataset path is copied verbatim (or skipped when sanitising an
optional group); a subgroup whose name IS a substring (`"Raw"` for a
well-formed layout) is re-encoded through `add_raw_data`. -/
def compressSingleSubAction (sanitize : Bool) (rn : Nat) (subgroup : String) : SubAction :=
  if ¬ (subgroup.toList <:+: (rawDatasetNameSingle rn).toList) then
    if sanitize ∧ subgroup ∈ OPTIONAL_READ_GROUPS then .skipped else .copied
  else .reencoded

end Compress

/-- C4 counterexample: a read whose on-disk raw data is already
vbz-compressed (`check_read_compression` identifies it as the VBZ
codec) is nevertheless sent down the re-encode path when the target is
VBZ, because the match test compares `str(target)` (`"vbz"`) against
the filter dict keys (`"32020"`): `compress_single_read` takes the
per-subgroup path and `_add_read_from_multi` re-encodes the `Raw`
group.  Also, with a differing codec, a hardlinkable metadata group
with an available sharer is hardlinked, not copied verbatim. -/
theorem c4_counterexample :
    Compress.checkReadCompression (Compress.filterSettings Compress.VBZ) =
        some Compress.VBZ ∧
    Compress.compressSingleReadPath Compress.VBZ
        ((Compress.filterSettings Compress.VBZ).map Prod.fst) = .perSubgroup ∧
    Compress.addReadFromMultiAction false (some Compress.VBZ)
        ((Compress.filterSettings Compress.VBZ).map Prod.fst) true true "Raw" =
      .reencoded ∧
    Compress.addReadFromMultiAction false (some Compress.VBZ) ["gzip"] true true
        "tracking_id" = .hardlinked ∧
    Compress.SubAction.hardlinked ≠ Compress.SubAction.copied := by
  refine ⟨rfl, by decide, by decide, by decide, by decide⟩

/-- C4 (amended): the verbatim path is taken exactly when the target
codec's repr name is a key of the read's on-disk filter dict (true for
gzip-on-gzip and for a missing target; never for vbz, whose filter key
is the numeric id "32020").  When the repr name is a filter key,
`compress_single_read` copies the whole subtree verbatim and
`_add_read_from_multi` re-encodes nothing; when it is not, only the
raw group is re-encoded, optional groups are skipped when sanitising,
hardlinkable metadata groups are linked to an existing sharer when one
is registered, and every other subtree is copied verbatim. -/
theorem c4_compression_rewrite_paths (target : Compress.Compression)
    (filterKeys : List String) (sanitize runIdInMap sharerGroupExists : Bool)
    (subgroup : String) (rn : Nat) :
    (target.reprName ∈ filterKeys →
      Compress.compressSingleReadPath target filterKeys = .wholeCopy ∧
      (∀ s, Compress.addReadFromMultiAction sanitize (some target) filterKeys
          runIdInMap sharerGroupExists s ≠ .reencoded)) ∧
    (target.reprName ∉ filterKeys →
      Compress.compressSingleReadPath target filterKeys = .perSubgroup ∧
      Compress.addReadFromMultiAction sanitize (some target) filterKeys
          runIdInMap sharerGroupExists "Raw" = .reencoded ∧
      (subgroup ≠ "Raw" → ¬ (sanitize = true ∧ subgroup ∈ Compress.OPTIONAL_READ_GROUPS) →
        Compress.addReadFromMultiAction sanitize (some target) filterKeys
            runIdInMap sharerGroupExists subgroup = .copied ∨
        (Compress.addReadFromMultiAction sanitize (some target) filterKeys
            runIdInMap sharerGroupExists subgroup = .hardlinked ∧
          subgroup ∈ Compress.HARDLINK_GROUPS ∧ runIdInMap = true ∧
          sharerGroupExists = true)) ∧
      ((subgroup.toList <:+: (Compress.rawDatasetNameSingle rn).toList) →
        Compress.compressSingleSubAction sanitize rn subgroup = .reencoded) ∧
      (¬ (subgroup.toList <:+: (Compress.rawDatasetNameSingle rn).toList) →
        ¬ (sanitize = true ∧ subgroup ∈ Compress.OPTIONAL_READ_GROUPS) →
        Compress.compressSingleSubAction sanitize rn subgroup = .copied)) := by
  constructor
  · intro hmem
    refine ⟨by rw [Compress.compressSingleReadPath, if_pos hmem], ?_⟩
    intro s
    rw [Compress.addReadFromMultiAction]
    by_cases h1 : sanitize = true ∧ s ∈ Compress.OPTIONAL_READ_GROUPS
    · rw [if_pos h1]
      decide
    · rw [if_neg h1]
      have h2 : ¬ (s = "Raw" ∧
          Compress.targetMissingFromFilters (some target) filterKeys = true) := by
        intro hcon
        rw [Compress.targetMissingFromFilters] at hcon
        exact (of_decide_eq_true hcon.2) hmem
      rw [if_neg h2]
      by_cases h3 : s ∈ Compress.HARDLINK_GROUPS
      · rw [if_pos h3]
        by_cases h4 : runIdInMap = true ∧ sharerGroupExists = true
        · rw [if_pos h4]; decide
        · rw [if_neg h4]; decide
      · rw [if_neg h3]; decide
  · intro hmem
    refine ⟨by rw [Compress.compressSingleReadPath, if_neg hmem], ?_, ?_, ?_, ?_⟩
    · rw [Compress.addReadFromMultiAction]
      have h1 : ¬ (sanitize = true ∧ "Raw" ∈ Compress.OPTIONAL_READ_GROUPS) := by
        intro hcon
        exact absurd hcon.2 (by decide)
      rw [if_neg h1,
        if_pos ⟨rfl, by rw [Compress.targetMissingFromFilters]; exact decide_eq_true hmem⟩]
    · intro hraw hopt
      rw [Compress.addReadFromMultiAction, if_neg hopt]
      have h2 : ¬ (subgroup = "Raw" ∧
          Compress.targetMissingFromFilters (some target) filterKeys = true) := by
        intro hcon
        exact hraw hcon.1
      rw [if_neg h2]
      by_cases h3 : subgroup ∈ Compress.HARDLINK_GROUPS
      · rw [if_pos h3]
        by_cases h4 : runIdInMap = true ∧ sharerGroupExists = true
        · rw [if_pos h4]
          exact Or.inr ⟨rfl, h3, h4.1, h4.2⟩
        · rw [if_neg h4]
          exact Or.inl rfl
      · rw [if_neg h3]
        exact Or.inl rfl
    · intro hsub
      rw [Compress.compressSingleSubAction, if_neg (by simpa using hsub)]
    · intro hsub hopt
      rw [Compress.compressSingleSubAction, if_pos hsub, if_neg hopt]

/-- Witness for C4: gzip-to-gzip takes the verbatim whole-copy path
with no re-encoding; vbz-onto-gzip re-encodes only the raw group and
copies `UniqueGlobalKey` verbatim. -/
theorem c4_compression_rewrite_witness :
    Compress.compressSingleReadPath Compress.GZIP ["gzip", "shuffle"] = .wholeCopy ∧
    Compress.addReadFromMultiAction false (some Compress.GZIP) ["gzip", "shuffle"]
        false false "Raw" ≠ .reencoded ∧
    Compress.compressSingleReadPath Compress.VBZ ["gzip", "shuffle"] = .perSubgroup ∧
    Compress.addReadFromMultiAction false (some Compress.VBZ) ["gzip", "shuffle"]
        false false "Raw" = .reencoded ∧
    (Compress.addReadFromMultiAction false (some Compress.VBZ) ["gzip", "shuffle"]
        false false "UniqueGlobalKey" = .copied ∨
      (Compress.addReadFromMultiAction false (some Compress.VBZ) ["gzip", "shuffle"]
          false false "UniqueGlobalKey" = .hardlinked ∧
        "UniqueGlobalKey" ∈ Compress.HARDLINK_GROUPS ∧ false = true ∧ false = true)) :=
  ⟨((c4_compression_rewrite_paths Compress.GZIP ["gzip", "shuffle"] false false false
      "Raw" 0).1 (by decide)).1,
   ((c4_compression_rewrite_paths Compress.GZIP ["gzip", "shuffle"] false false false
      "Raw" 0).1 (by decide)).2 "Raw",
   ((c4_compression_rewrite_paths Compress.VBZ ["gzip", "shuffle"] false false false
      "Raw" 0).2 (by decide)).1,
   ((c4_compression_rewrite_paths Compress.VBZ ["gzip", "shuffle"] false false false
      "Raw" 0).2 (by decide)).2.1,
   ((c4_compression_rewrite_paths Compress.VBZ ["gzip", "shuffle"] false false false
      "UniqueGlobalKey" 0).2 (by decide)).2.2.1 (by decide) (by decide)⟩

namespace Chain

/-- `static_data.LEGACY_COMPONENT_NAMES`: the group-name stem to
component map used when a group carries no `component` attribute. -/
def LEGACY_COMPONENT_NAMES : List (String × String) :=
  [("Alignment", "alignment"), ("Basecall_1D", "basecall_1d"),
   ("OnlineBasecall", "basecall_1d"), ("Basecall_2D", "basecall_2d"),
   ("Calibration_Strand", "calibration_strand"), ("EventDetection", "event_detection"),
   ("Segmentation", "segmentation"), ("Hairpin_Split", "segmentation"),
   ("Segment_Linear", "segmentation"), ("Validation", "segmentation"),
   ("AlignToRef", "align_to_ref"), ("Barcoding", "barcoding"),
   ("Classification", "classification"), ("Evaluation", "evaluation"),
   ("Multiple_Alignment", "multiple_alignment"), ("Squiggle_Map", "squiggle_map"),
   ("Sam_Segmentor", "sam_segmentor"), ("arma", "arma"),
   ("Basic_component", "basic_component")]

/-- Tests `str(value).startswith("Analyses/")` (nine characters). -/
def isAnalysesPath (v : String) : Bool :=
  v.toList.take 9 = "Analyses/".toList

/-- The `Analyses/`-prefixed attribute values of group `grp`, turned
into chain entries `(key, value[9:])` in attribute order.  A value `v`
accepted by `isAnalysesPath` satisfies
`"Analyses/" ++ String.mk (v.toList.drop 9) = v`, so the enqueued path
below is the original attribute value. -/
def analysisEdges (g : String → List (String × String)) (grp : String) :
    List (String × String) :=
  (g grp).filterMap (fun kv =>
    if isAnalysesPath kv.2 then some (kv.1, String.mk (kv.2.toList.drop 9)) else none)

/-- One chain update of `get_chain`: an entry seen again is removed
from its earlier position (`deque.remove` drops the first occurrence)
and the entry is appended at the end. -/
def chainStep (chain : List (String × String)) (e : String × String) :
    List (String × String) :=
  (if e ∈ chain then chain.erase e else chain) ++ [e]

/-- Embeds the `while groups_to_check` loop of `get_chain`
(`fast5_file.Fast5File.get_chain` and the identical
`fast5_read.Fast5Read.get_chain`): dequeue a group, fold its analysis
edges into the chain, enqueue each edge's target path.  The Python loop
runs until the queue empties; here it is indexed by fuel, and the
characterisation below holds for every fuel. -/
def getChainLoop (g : String → List (String × String)) :
    Nat → List String → List (String × String) → List (String × String)
  | 0, _, chain => chain
  | _ + 1, [], chain => chain
  | fuel + 1, grp :: rest, chain =>
    getChainLoop g fuel
      (rest ++ (analysisEdges g grp).map (fun e => "Analyses/" ++ e.2))
      ((analysisEdges g grp).foldl chainStep chain)

/-- The breadth-first encounter sequence of chain entries: the edges of
the dequeued group, followed by those of the rest of the traversal. -/
def bfsVisits (g : String → List (String × String)) :
    Nat → List String → List (String × String)
  | 0, _ => []
  | _ + 1, [] => []
  | fuel + 1, grp :: rest =>
    analysisEdges g grp ++
      bfsVisits g fuel (rest ++ (analysisEdges g grp).map (fun e => "Analyses/" ++ e.2))

/-- Specification-side description, following the spec's words: the
provenance list is obtained by folding the breadth-first encounter
sequence with "remove any node encountered again from its earlier
position and re-append it at the end", so the most recent mention of a
node determines its final position. -/
def chainOfVisits (init visits : List (String × String)) : List (String × String) :=
  visits.foldl chainStep init

/-- Embeds the head-component lookup of `get_chain`: the group's
`component` attribute, or the legacy table keyed by `group_name[:-4]`
(a missing entry is the Python `KeyError`). -/
def componentOf (g : String → List (String × String)) (groupName : String) :
    Option String :=
  match lookupA (g ("Analyses/" ++ groupName)) "component" with
  | some c => some c
  | none =>
    lookupA LEGACY_COMPONENT_NAMES
      (String.mk (groupName.toList.take (groupName.toList.length - 4)))

/-- Embeds `get_chain`: the chain seeded with the end group's
component entry, then the traversal loop seeded with the end group. -/
def getChain (g : String → List (String × String)) (fuel : Nat) (groupName : String) :
    Except String (List (String × String)) :=
  match componentOf g groupName with
  | none => .error "KeyError legacy component"
  | some comp =>
    .ok (getChainLoop g fuel ["Analyses/" ++ groupName] [(comp, groupName)])

theorem getChainLoop_eq_chainOfVisits (g : String → List (String × String)) :
    ∀ (fuel : Nat) (queue : List String) (init : List (String × String)),
      getChainLoop g fuel queue init = chainOfVisits init (bfsVisits g fuel queue) := by
  intro fuel
  induction fuel with
  | zero => intro queue init; rfl
  | succ n ih =>
    intro queue init
    cases queue with
    | nil => rfl
    | cons grp rest =>
      rw [getChainLoop, bfsVisits, chainOfVisits, List.foldl_append]
      exact ih _ _

end Chain

/-- C7: `get_chain` returns exactly the provenance list produced by a
breadth-first traversal from the end group, folded with the
remove-then-re-append deduplication, seeded with the end group's
component entry — so the most recent mention of a node determines its
final position.  The statement holds for every fuel bound on the
traversal loop (the Python loop is the instance where the fuel exhausts
the queue of the acyclic dependency graph). -/
theorem c7_get_chain_bfs (g : String → List (String × String)) (fuel : Nat)
    (groupName comp : String) (hcomp : Chain.componentOf g groupName = some comp) :
    Chain.getChain g fuel groupName =
      .ok (Chain.chainOfVisits [(comp, groupName)]
        (Chain.bfsVisits g fuel ["Analyses/" ++ groupName])) := by
  rw [Chain.getChain, hcomp]
  rw [show (match some comp with
      | none => (Except.error "KeyError legacy component" : Except String (List (String × String)))
      | some comp =>
        Except.ok (Chain.getChainLoop g fuel ["Analyses/" ++ groupName] [(comp, groupName)])) =
      Except.ok (Chain.getChainLoop g fuel ["Analyses/" ++ groupName] [(comp, groupName)])
    from rfl]
  rw [Chain.getChainLoop_eq_chainOfVisits]

/-- A concrete three-group analysis graph: `Test_000` depends on
`Second_000` and `First_000` (in that attribute order), and `First_000`
depends on `Second_000` again, so the `second` entry is moved to the
chain end when re-encountered. -/
def c7Graph : String → List (String × String) := fun p =>
  if p = "Analyses/Test_000" then
    [("component", "test"), ("second", "Analyses/Second_000"),
     ("first", "Analyses/First_000")]
  else if p = "Analyses/First_000" then
    [("component", "first"), ("second", "Analyses/Second_000")]
  else if p = "Analyses/Second_000" then [("component", "second")]
  else []

/-- Witness for C7: on the concrete graph the chain equals the folded
breadth-first visit sequence, and the re-encountered `second` entry
ends up after `first`. -/
theorem c7_get_chain_witness :
    Chain.getChain c7Graph 5 "Test_000" =
      .ok (Chain.chainOfVisits [("test", "Test_000")]
        (Chain.bfsVisits c7Graph 5 ["Analyses/Test_000"])) ∧
    Chain.chainOfVisits [("test", "Test_000")]
        (Chain.bfsVisits c7Graph 5 ["Analyses/Test_000"]) =
      [("test", "Test_000"), ("first", "First_000"), ("second", "Second_000")] :=
  ⟨c7_get_chain_bfs c7Graph 5 "Test_000" "test" rfl, rfl⟩

namespace InfoScan

/-- One `Raw/Reads/Read_<n>` group as the scanner sees it: the group
name, its attributes (each `Option`, a missing required attribute being
a Python `KeyError`), and which signal dataset names are present
(`Signal` for modern layouts, `Data` for pre-1.1 layouts). -/
structure RawReadGroup where
  name : String
  readNumber : Option Nat
  readId : Option String
  startTime : Option Int
  duration : Option Nat
  startMux : Option Int
  medianBefore : Option ℚ
  hasSignal : Bool
  hasData : Bool
deriving Repr, DecidableEq

/-- One `Analyses/EventDetection_XXX/Reads/<name>` group: attributes
plus the length of the `Events` table when one is present. -/
structure EventReadGroup where
  name : String
  readNumber : Option Nat
  readId : Option String
  startTime : Option Int
  duration : Option Nat
  startMux : Option Int
  medianBefore : Option ℚ
  events : Option Nat
deriving Repr, DecidableEq

/-- The parts of a container that `Fast5Info.__init__` inspects.
`rawReads = some rs` models a top-level `Raw` group (with its `Reads`
subgroup) holding the groups `rs`; `analyses = some l` models an
`Analyses` group whose children are named by `l`, each paired with its
`Reads` subgroup's event groups when that subgroup exists.  `basename`
is `os.path.basename(fname)`, the legacy fallback read id.  The file
version is a rational (Python float) when the attribute is present. -/
structure FileModel where
  fileVersion : Option ℚ
  hasUGK : Bool
  hasTrackingId : Bool
  hasChannelId : Bool
  channelNumber : Option Nat
  rawReads : Option (List RawReadGroup)
  analyses : Option (List (String × Option (List EventReadGroup)))
  basename : String

/-- The scanner's accumulating state: the fields of `Fast5Info`, with
the two lookup dictionaries kept explicitly as association lists. -/
structure InfoState where
  valid : Bool
  version : ℚ
  channel : Option Nat
  readInfo : List ReadInfo
  numMap : List (Nat × Nat)
  idMap : List (String × Nat)
deriving Repr, DecidableEq

/-- Appends a catalog entry and registers it in both lookup maps, as
the tail of each scanning loop iteration does. -/
def appendRead (st : InfoState) (ri : ReadInfo) : InfoState :=
  { st with readInfo := st.readInfo ++ [ri],
            numMap := upsertA st.numMap ri.readNumber st.readInfo.length,
            idMap := upsertA st.idMap ri.readId st.readInfo.length }

/-- Embeds the version check (`fast5_info.Fast5Info.__init__` lines on
`file_version`): absence means invalid with version 0.0; a version
below 0.6 is invalid. -/
def checkVersion (f : FileModel) (st : InfoState) : InfoState :=
  match f.fileVersion with
  | some v => if v < mkRat 6 10 then { st with version := v, valid := false }
              else { st with version := v }
  | none => { st with valid := false, version := 0 }

/-- The tracking-id rule: a missing `tracking_id` invalidates files of
version 1.1 or newer. -/
def checkTracking (f : FileModel) (st : InfoState) : InfoState :=
  if f.hasTrackingId = false ∧ mkRat 11 10 ≤ st.version then { st with valid := false }
  else st

/-- The channel-number rule: a missing `channel_number` attribute
invalidates pre-1.1 files. -/
def checkChannelFinish (f : FileModel) (st : InfoState) : Except String InfoState :=
  if f.channelNumber = none ∧ st.version < mkRat 11 10 then .ok { st with valid := false }
  else .ok st

/-- Embeds the mandatory-group checks: a missing `UniqueGlobalKey`
leaves `global_keys` unbound (a `NameError`); a missing `channel_id`
raises a `KeyError` at the unconditional
`UniqueGlobalKey/channel_id` access (the source also marks the state
invalid just before raising, which the raise makes unobservable);
otherwise the tracking-id rule, the channel attribute and the
channel-number rule are applied in order. -/
def checkGroups (f : FileModel) (st : InfoState) : Except String InfoState :=
  if f.hasUGK = false then .error "NameError global_keys"
  else if f.hasChannelId = false then .error "KeyError channel_id"
  else checkChannelFinish f { checkTracking f st with channel := f.channelNumber }

/-- A required attribute: present or a Python `KeyError`. -/
def require (x : Option α) (msg : String) : Except String α :=
  match x with
  | some v => .ok v
  | none => .error msg

/-- Resolves the `read_id` of a raw read group.  The returned state
may be marked invalid (modern file without the attribute); the
`Option String` argument threads the Python `read_id` local, whose
previous binding is silently reused in that case (a `NameError` on the
first iteration). -/
def rawReadIdResolve (f : FileModel) (st : InfoState) (lastId : Option String)
    (rg : RawReadGroup) : Except String (InfoState × String) :=
  match rg.readId with
  | some rid => .ok (st, rid)
  | none =>
    if mkRat 11 10 ≤ st.version then
      match lastId with
      | some prev => .ok ({ st with valid := false }, prev)
      | none => .error "NameError read_id"
    else .ok (st, f.basename)

/-- The raw-presence rule of the raw-reads loop: `Signal` marks raw
data present; on a pre-1.1 file a `Data` dataset does too, and the
absence of both invalidates the file; on a modern file the absence of
`Signal` is tolerated here. -/
def rawReadFlag (st : InfoState) (rg : RawReadGroup) (ri0 : ReadInfo) :
    InfoState × ReadInfo :=
  if rg.hasSignal then (st, { ri0 with hasRawData := true })
  else if st.version < mkRat 11 10 then
    if rg.hasData then (st, { ri0 with hasRawData := true })
    else ({ st with valid := false }, ri0)
  else (st, ri0)

/-- Embeds one iteration of the `Raw/Reads` loop: read the required
attributes (a missing one is a `KeyError`), resolve the read id, build
the catalog entry with the raw-presence rule, append it. -/
def processRawRead (f : FileModel) (st : InfoState) (lastId : Option String)
    (rg : RawReadGroup) : Except String (InfoState × Option String) := do
  let rnum ← require rg.readNumber "KeyError read_number"
  let stRid ← rawReadIdResolve f st lastId rg
  let startTime ← require rg.startTime "KeyError start_time"
  let dur ← require rg.duration "KeyError duration"
  let stRi := rawReadFlag stRid.1 rg
    (mkReadInfo rnum stRid.2 startTime dur (rg.startMux.getD 0) (rg.medianBefore.getD (-1)))
  Except.ok (appendRead stRi.1 stRi.2, some stRid.2)

/-- The `Raw/Reads` loop over the (name-ordered) read groups. -/
def scanRawList (f : FileModel) : List RawReadGroup → InfoState × Option String →
    Except String (InfoState × Option String)
  | [], acc => .ok acc
  | rg :: rest, acc => do
    let acc2 ← processRawRead f acc.1 acc.2 rg
    scanRawList f rest acc2

/-- Embeds the raw-reads phase: scan `Raw/Reads` when a `Raw` group
exists, otherwise invalidate files of version 1.1 or newer. -/
def scanRaw (f : FileModel) (st : InfoState) : Except String InfoState :=
  match f.rawReads with
  | some rgs => do
    let acc ← scanRawList f (sortBy (fun rg => rg.name) rgs) (st, none)
    Except.ok acc.1
  | none =>
    if mkRat 11 10 ≤ st.version then .ok { st with valid := false } else .ok st

/-- Finds the event-detection group the scan processes: iterating the
sorted `Analyses` names in reverse, the first name with the
`EventDetection` stem whose `Reads` subgroup exists (names with the
stem but no `Reads` subgroup are skipped by `continue`). -/
def findEventGroup : List (String × Option (List EventReadGroup)) →
    Option (List EventReadGroup)
  | [] => none
  | (name, reads?) :: rest =>
    if name.toList.take 14 = "EventDetection".toList then
      match reads? with
      | some evs => some evs
      | none => findEventGroup rest
    else findEventGroup rest

/-- Builds the catalog entry of one event read: event presence and
count from the `Events` table. -/
def eventEntry (er : EventReadGroup) (rnum : Nat) (rid : String) (startTime : Int)
    (dur : Nat) : ReadInfo :=
  match er.events with
  | some n =>
    { mkReadInfo rnum rid startTime dur (er.startMux.getD 0) (er.medianBefore.getD (-1)) with
        hasEventData := true, eventDataCount := n }
  | none => mkReadInfo rnum rid startTime dur (er.startMux.getD 0) (er.medianBefore.getD (-1))

/-- Merges an event-read entry into the catalog: update the existing
entry with the same read number in place, or append a new entry
(invalidating files of version 1.1 or newer first). -/
def eventMerge (st : InfoState) (ri : ReadInfo) : Except String InfoState :=
  match lookupA st.numMap ri.readNumber with
  | some idx =>
    match st.readInfo[idx]? with
    | some old =>
      let merged : ReadInfo :=
        { old with hasEventData := ri.hasEventData, eventDataCount := ri.eventDataCount }
      .ok { st with readInfo := st.readInfo.set idx merged }
    | none => .error "IndexError read_info"
  | none =>
    .ok (appendRead (if mkRat 11 10 ≤ st.version then { st with valid := false } else st) ri)

/-- Embeds the body of one event-read iteration after the read id is
resolved: required attributes, entry construction, merge-or-append. -/
def processEventReadRest (st : InfoState) (er : EventReadGroup) (rnum : Nat)
    (rid : String) : Except String InfoState := do
  let startTime ← require er.startTime "KeyError start_time"
  let dur ← require er.duration "KeyError duration"
  eventMerge st (eventEntry er rnum rid startTime dur)

/-- Embeds one event-read iteration: resolve the read number and read
id; a modern file missing the id is marked invalid and the read is
skipped (`continue`), a legacy file falls back on the basename. -/
def processEventRead (f : FileModel) (st : InfoState) (er : EventReadGroup) :
    Except String InfoState := do
  let rnum ← require er.readNumber "KeyError read_number"
  match er.readId with
  | some rid => processEventReadRest st er rnum rid
  | none =>
    if mkRat 11 10 ≤ st.version then Except.ok { st with valid := false }
    else processEventReadRest st er rnum f.basename

/-- The loop over the selected event-detection group's reads. -/
def scanEventList (f : FileModel) : List EventReadGroup → InfoState →
    Except String InfoState
  | [], st => .ok st
  | er :: rest, st => do
    let st2 ← processEventRead f st er
    scanEventList f rest st2

/-- Embeds the event-detection phase: pick the most recent
event-detection group that has a `Reads` subgroup (names sorted, then
scanned in reverse) and process its reads in name order. -/
def scanEvents (f : FileModel) (st : InfoState) : Except String InfoState :=
  let names := match f.analyses with
    | some l => (sortBy Prod.fst l).reverse
    | none => []
  match findEventGroup names with
  | some evs => scanEventList f (sortBy (fun er => er.name) evs) st
  | none => .ok st

/-- Embeds the final legacy validity rule: a pre-1.1 file with an empty
read catalog is invalid. -/
def legacyCheck (st : InfoState) : InfoState :=
  if st.version < mkRat 11 10 ∧ st.readInfo = [] then { st with valid := false } else st

/-- The scanner's initial state (`valid = True`, empty catalog). -/
def initInfo : InfoState :=
  { valid := true, version := 0, channel := none, readInfo := [], numMap := [], idMap := [] }

/-- Embeds `Fast5Info.__init__` (`scan(path)`): version check,
mandatory groups, raw-reads enumeration, event-detection merge, final
legacy validity rule.  An uncaught Python exception is an `error`
result (the bare `except` clause re-raises after marking invalid). -/
def scan (f : FileModel) : Except String InfoState := do
  let st1 := checkVersion f initInfo
  let st2 ← checkGroups f st1
  let st3 ← scanRaw f st2
  let st4 ← scanEvents f st3
  Except.ok (legacyCheck st4)

theorem exceptBind_ok {α β : Type} (x : Except String α) (g : α → Except String β) (b : β)
    (h : (x >>= g) = .ok b) : ∃ a, x = .ok a ∧ g a = .ok b := by
  cases x with
  | ok a => exact ⟨a, rfl, h⟩
  | error e => cases h

theorem checkTracking_version (f : FileModel) (st : InfoState) :
    (checkTracking f st).version = st.version := by
  rw [checkTracking]
  split <;> rfl

theorem checkTracking_mono (f : FileModel) (st : InfoState) (hv : st.valid = false) :
    (checkTracking f st).valid = false := by
  rw [checkTracking]
  split
  · rfl
  · exact hv

theorem checkGroups_pres (f : FileModel) (st st2 : InfoState)
    (h : checkGroups f st = .ok st2) :
    st2.version = st.version ∧ (st.valid = false → st2.valid = false) := by
  rw [checkGroups] at h
  split at h
  · cases h
  · split at h
    · cases h
    · rw [checkChannelFinish] at h
      split at h
      · cases h
        exact ⟨checkTracking_version f st, fun _ => rfl⟩
      · cases h
        exact ⟨checkTracking_version f st, fun hv => checkTracking_mono f st hv⟩

theorem appendRead_version (st : InfoState) (ri : ReadInfo) :
    (appendRead st ri).version = st.version := rfl

theorem rawReadIdResolve_pres (f : FileModel) (st : InfoState) (lastId : Option String)
    (rg : RawReadGroup) (p : InfoState × String)
    (h : rawReadIdResolve f st lastId rg = .ok p) :
    p.1.version = st.version ∧ (st.valid = false → p.1.valid = false) := by
  rw [rawReadIdResolve.eq_def] at h
  split at h
  · cases h
    exact ⟨rfl, fun hv => hv⟩
  · split at h
    · split at h
      · cases h
        exact ⟨rfl, fun _ => rfl⟩
      · cases h
    · cases h
      exact ⟨rfl, fun hv => hv⟩

theorem rawReadFlag_pres (st : InfoState) (rg : RawReadGroup) (ri0 : ReadInfo) :
    (rawReadFlag st rg ri0).1.version = st.version ∧
      (st.valid = false → (rawReadFlag st rg ri0).1.valid = false) := by
  rw [rawReadFlag]
  constructor
  · split
    · rfl
    · split
      · split <;> rfl
      · rfl
  · intro hv
    split
    · exact hv
    · split
      · split
        · exact hv
        · rfl
      · exact hv

theorem processRawRead_pres (f : FileModel) (st : InfoState) (lastId : Option String)
    (rg : RawReadGroup) (acc : InfoState × Option String)
    (h : processRawRead f st lastId rg = .ok acc) :
    acc.1.version = st.version ∧ (st.valid = false → acc.1.valid = false) := by
  rw [processRawRead] at h
  rcases exceptBind_ok _ _ _ h with ⟨rnum, _, h⟩
  rcases exceptBind_ok _ _ _ h with ⟨stRid, hrid, h⟩
  rcases exceptBind_ok _ _ _ h with ⟨startTime, _, h⟩
  rcases exceptBind_ok _ _ _ h with ⟨dur, _, h⟩
  cases h
  rcases rawReadIdResolve_pres f st lastId rg stRid hrid with ⟨hv1, hm1⟩
  rcases rawReadFlag_pres stRid.1 rg
    (mkReadInfo rnum stRid.2 startTime dur (rg.startMux.getD 0)
      (rg.medianBefore.getD (-1))) with ⟨hv2, hm2⟩
  exact ⟨hv2.trans hv1, fun hv => hm2 (hm1 hv)⟩

theorem scanRawList_pres (f : FileModel) :
    ∀ (l : List RawReadGroup) (acc acc2 : InfoState × Option String),
      scanRawList f l acc = .ok acc2 →
      acc2.1.version = acc.1.version ∧ (acc.1.valid = false → acc2.1.valid = false) := by
  intro l
  induction l with
  | nil =>
    intro acc acc2 h
    rw [scanRawList] at h
    cases h
    exact ⟨rfl, fun hv => hv⟩
  | cons rg rest ih =>
    intro acc acc2 h
    rw [scanRawList] at h
    rcases exceptBind_ok _ _ _ h with ⟨mid, hmid, hrest⟩
    rcases processRawRead_pres f acc.1 acc.2 rg mid hmid with ⟨hv1, hm1⟩
    rcases ih mid acc2 hrest with ⟨hv2, hm2⟩
    exact ⟨hv2.trans hv1, fun hv => hm2 (hm1 hv)⟩

theorem scanRaw_pres (f : FileModel) (st st2 : InfoState) (h : scanRaw f st = .ok st2) :
    st2.version = st.version ∧ (st.valid = false → st2.valid = false) := by
  rw [scanRaw] at h
  split at h
  · rcases exceptBind_ok _ _ _ h with ⟨acc, hacc, hok⟩
    cases hok
    exact scanRawList_pres f _ _ _ hacc
  · split at h
    · cases h
      exact ⟨rfl, fun _ => rfl⟩
    · cases h
      exact ⟨rfl, fun hv => hv⟩

theorem eventMerge_pres (st : InfoState) (ri : ReadInfo) (st2 : InfoState)
    (h : eventMerge st ri = .ok st2) :
    st2.version = st.version ∧ (st.valid = false → st2.valid = false) := by
  rw [eventMerge.eq_def] at h
  split at h
  · split at h
    · cases h
      exact ⟨rfl, fun hv => hv⟩
    · cases h
  · cases h
    constructor
    · split <;> rfl
    · intro hv
      split
      · rfl
      · exact hv

theorem processEventReadRest_pres (st : InfoState) (er : EventReadGroup) (rnum : Nat)
    (rid : String) (st2 : InfoState) (h : processEventReadRest st er rnum rid = .ok st2) :
    st2.version = st.version ∧ (st.valid = false → st2.valid = false) := by
  rw [processEventReadRest] at h
  rcases exceptBind_ok _ _ _ h with ⟨startTime, _, h⟩
  rcases exceptBind_ok _ _ _ h with ⟨dur, _, h⟩
  exact eventMerge_pres st _ st2 h

theorem processEventRead_pres (f : FileModel) (st : InfoState) (er : EventReadGroup)
    (st2 : InfoState) (h : processEventRead f st er = .ok st2) :
    st2.version = st.version ∧ (st.valid = false → st2.valid = false) := by
  rw [processEventRead] at h
  rcases exceptBind_ok _ _ _ h with ⟨rnum, _, h⟩
  split at h
  · exact processEventReadRest_pres _ _ _ _ _ h
  · split at h
    · cases h
      exact ⟨rfl, fun _ => rfl⟩
    · exact processEventReadRest_pres _ _ _ _ _ h

theorem scanEventList_pres (f : FileModel) :
    ∀ (l : List EventReadGroup) (st st2 : InfoState),
      scanEventList f l st = .ok st2 →
      st2.version = st.version ∧ (st.valid = false → st2.valid = false) := by
  intro l
  induction l with
  | nil =>
    intro st st2 h
    rw [scanEventList] at h
    cases h
    exact ⟨rfl, fun hv => hv⟩
  | cons er rest ih =>
    intro st st2 h
    rw [scanEventList] at h
    rcases exceptBind_ok _ _ _ h with ⟨mid, hmid, hrest⟩
    rcases processEventRead_pres f st er mid hmid with ⟨hv1, hm1⟩
    rcases ih mid st2 hrest with ⟨hv2, hm2⟩
    exact ⟨hv2.trans hv1, fun hv => hm2 (hm1 hv)⟩

theorem scanEvents_pres (f : FileModel) (st st2 : InfoState)
    (h : scanEvents f st = .ok st2) :
    st2.version = st.version ∧ (st.valid = false → st2.valid = false) := by
  rw [scanEvents] at h
  split at h
  · exact scanEventList_pres f _ st st2 h
  · cases h
    exact ⟨rfl, fun hv => hv⟩

theorem legacyCheck_version (st : InfoState) : (legacyCheck st).version = st.version := by
  rw [legacyCheck]
  split <;> rfl

theorem legacyCheck_readInfo (st : InfoState) : (legacyCheck st).readInfo = st.readInfo := by
  rw [legacyCheck]
  split <;> rfl

theorem legacyCheck_mono (st : InfoState) (hv : st.valid = false) :
    (legacyCheck st).valid = false := by
  rw [legacyCheck]
  split
  · rfl
  · exact hv

theorem legacyCheck_empty (st : InfoState) (hver : (legacyCheck st).version < mkRat 11 10)
    (hri : (legacyCheck st).readInfo = []) : (legacyCheck st).valid = false := by
  rw [legacyCheck_version] at hver
  rw [legacyCheck_readInfo] at hri
  rw [legacyCheck, if_pos ⟨hver, hri⟩]

end InfoScan

/-- C6: whenever `scan(path)` completes with an info result, (a) a
container lacking the top-level version attribute is marked invalid
with version 0.0, and (b) a legacy container (version below 1.1) whose
read catalog is empty after scanning both the raw-reads group and the
event-detection analyses is marked invalid. -/
theorem c6_scan_validity (f : InfoScan.FileModel) (st : InfoScan.InfoState)
    (hscan : InfoScan.scan f = .ok st) :
    (f.fileVersion = none → st.valid = false ∧ st.version = 0) ∧
    (st.version < mkRat 11 10 → st.readInfo = [] → st.valid = false) := by
  rw [InfoScan.scan] at hscan
  rcases InfoScan.exceptBind_ok _ _ _ hscan with ⟨st2, h2, hscan2⟩
  rcases InfoScan.exceptBind_ok _ _ _ hscan2 with ⟨st3, h3, hscan3⟩
  rcases InfoScan.exceptBind_ok _ _ _ hscan3 with ⟨st4, h4, hfin⟩
  have hst : st = InfoScan.legacyCheck st4 := by
    cases hfin
    rfl
  constructor
  · intro hnone
    have hver1 : (InfoScan.checkVersion f InfoScan.initInfo) =
        { InfoScan.initInfo with valid := false, version := 0 } := by
      rw [InfoScan.checkVersion, hnone]
    rw [hver1] at h2
    rcases InfoScan.checkGroups_pres f _ st2 h2 with ⟨hv2, hm2⟩
    rcases InfoScan.scanRaw_pres f st2 st3 h3 with ⟨hv3, hm3⟩
    rcases InfoScan.scanEvents_pres f st3 st4 h4 with ⟨hv4, hm4⟩
    subst hst
    refine ⟨InfoScan.legacyCheck_mono st4 (hm4 (hm3 (hm2 rfl))), ?_⟩
    rw [InfoScan.legacyCheck_version, hv4, hv3, hv2]
  · intro hver hempty
    subst hst
    exact InfoScan.legacyCheck_empty st4 hver hempty

/-- A concrete container without a version attribute (and one raw read
group) used to witness C6. -/
def c6File : InfoScan.FileModel :=
  { fileVersion := none, hasUGK := true, hasTrackingId := true, hasChannelId := true,
    channelNumber := some 1,
    rawReads := some [{ name := "Read_3", readNumber := some 3, readId := some "r3",
                        startTime := some 0, duration := some 5, startMux := some 1,
                        medianBefore := some 2, hasSignal := false, hasData := true }],
    analyses := none, basename := "file.fast5" }

/-- Witness for C6: scanning `c6File` (no version attribute) yields an
invalid result with version 0; scanning the same container with no
reads and version 0.9 yields an invalid result by the legacy rule. -/
theorem c6_scan_validity_witness :
    (∃ st, InfoScan.scan c6File = .ok st ∧ st.valid = false ∧ st.version = 0) ∧
    (∃ st, InfoScan.scan { c6File with fileVersion := some (mkRat 9 10), rawReads := some [] } =
        .ok st ∧ st.valid = false) := by
  constructor
  · exact ⟨_, rfl, (c6_scan_validity c6File _ rfl).1 rfl⟩
  · refine ⟨_, rfl, ?_⟩
    refine (c6_scan_validity
      { c6File with fileVersion := some (mkRat 9 10), rawReads := some [] } _ rfl).2 ?_ rfl
    decide

namespace Subset

/-- `int(ceil(n / float(b)))` for positive `b` (exact arithmetic). -/
def ceilDivNat (a b : Nat) : Nat := (a + b - 1) / b

/-- Embeds the output-file naming of
`Fast5FilterWorker.populate_out_files`: `filename_base + str(i) + ".fast5"`
for `i` below `ceil(len(read_set) / batch_size)`. -/
def outFileNames (base : String) (nOut : Nat) : List String :=
  (List.range nOut).map (fun i => base ++ toString i ++ ".fast5")

/-- The scheduler's state, output files identified by their index into
`populate_out_files`'s name list.  `out i` is both the bookkeeping set
`out_files[name_i]` and the physical content of output file `i` (they
coincide throughout a synchronous run).  `availOut` is
`available_out_files` (as indices) and `inputs` holds each remaining
input file as its list of read ids. -/
structure WState where
  readSet : Finset String
  inputs : List (List String)
  availOut : List Nat
  out : Nat → Finset String

/-- Embeds the loop of `extract_selected_reads`: walk the input file's
reads that lie in the pending set, accumulate `found_reads`, skip
(without writing) reads already present in the output, and return early
— not exhausted — as soon as `count` found reads are reached right
after a write.  The boolean is `True` when the input file was
exhausted. -/
def extractGo (count : Nat) : List String → Finset String → Finset String →
    Finset String × Bool
  | [], found, _ => (found, true)
  | r :: rest, found, present =>
    if r ∈ present then extractGo count rest (insert r found) present
    else if count ≤ (insert r found).card then (insert r found, false)
    else extractGo count rest (insert r found) (insert r present)

/-- Embeds `extract_selected_reads`: the read generator yields the
input file's reads that are in the pending `read_set` (a set
intersection; the file's order stands in for the unspecified set
order), starting from the output file's current content as
`reads_present`. -/
def extractSelectedReads (fileReads : List String) (readSet : Finset String)
    (present : Finset String) (count : Nat) : Finset String × Bool :=
  extractGo count (fileReads.filter (fun r => decide (r ∈ readSet))) ∅ present

/-- One iteration of the synchronous scheduler
(`_launch_sync_tasks` driving `_args_generator` and
`_update_file_lists`): pop the last available output slot and input
file, extract up to the slot's remaining quota, merge the found reads
into the slot, drop them from the pending set, re-queue the output slot
while below the batch size and the input file when not exhausted.  When
either list is empty the state is final and unchanged. -/
def step (B : Nat) (st : WState) : WState :=
  match st.availOut.getLast?, st.inputs.getLast? with
  | some o, some fileReads =>
    let res := extractSelectedReads fileReads st.readSet (st.out o) (B - (st.out o).card)
    { readSet := st.readSet \ res.1,
      inputs := if res.2 then st.inputs.dropLast else st.inputs.dropLast ++ [fileReads],
      availOut := if (st.out o ∪ res.1).card < B then st.availOut.dropLast ++ [o]
                  else st.availOut.dropLast,
      out := Function.update st.out o (st.out o ∪ res.1) }
  | _, _ => st

/-- The scheduler's initial state: all reads pending, all inputs
queued, the output slots available in descending name order (so the
lowest-named slot is popped first), all output files empty (existing
files are deleted by `populate_out_files`). -/
def initState (readSet : Finset String) (files : List (List String)) (base : String)
    (nOut : Nat) : WState :=
  { readSet := readSet, inputs := files,
    availOut := (sortBy (fun i => base ++ toString i ++ ".fast5") (List.range nOut)).reverse,
    out := fun _ => ∅ }

/-- The state after `n` scheduler iterations. -/
def stepN (B : Nat) (st : WState) (n : Nat) : WState := (step B)^[n] st

/-- The run invariant: pending reads come from the original target
set; available output slots are among the created files; output
contents are disjoint from the pending set and pairwise disjoint;
untracked indices are empty; and the outputs partition exactly the
extracted reads (original minus pending). -/
structure Inv (N0 : Finset String) (nOut : Nat) (st : WState) : Prop where
  subset : st.readSet ⊆ N0
  availLt : ∀ o ∈ st.availOut, o < nOut
  outDisjRS : ∀ i, Disjoint (st.out i) st.readSet
  pairwise : ∀ i j, i ≠ j → Disjoint (st.out i) (st.out j)
  zeroOutside : ∀ i, nOut ≤ i → st.out i = ∅
  union : (Finset.range nOut).biUnion st.out = N0 \ st.readSet

theorem extractGo_subset (count : Nat) :
    ∀ (l : List String) (found present : Finset String),
      (extractGo count l found present).1 ⊆ found ∪ l.toFinset := by
  intro l
  induction l with
  | nil =>
    intro found present
    rw [extractGo]
    exact Finset.subset_union_left
  | cons r rest ih =>
    intro found present
    rw [extractGo]
    by_cases h1 : r ∈ present
    · rw [if_pos h1]
      refine (ih (insert r found) present).trans ?_
      intro x hx
      rcases Finset.mem_union.mp hx with hx | hx
      · rcases Finset.mem_insert.mp hx with hx | hx
        · subst hx
          simp
        · exact Finset.mem_union_left _ hx
      · simp [List.mem_toFinset] at hx
        simp [List.mem_toFinset, hx]
    · rw [if_neg h1]
      by_cases h2 : count ≤ (insert r found).card
      · rw [if_pos h2]
        intro x hx
        rcases Finset.mem_insert.mp hx with hx | hx
        · subst hx
          simp
        · exact Finset.mem_union_left _ hx
      · rw [if_neg h2]
        refine (ih (insert r found) (insert r present)).trans ?_
        intro x hx
        rcases Finset.mem_union.mp hx with hx | hx
        · rcases Finset.mem_insert.mp hx with hx | hx
          · subst hx
            simp
          · exact Finset.mem_union_left _ hx
        · simp [List.mem_toFinset] at hx
          simp [List.mem_toFinset, hx]

theorem extractSelectedReads_subset (fileReads : List String) (readSet present : Finset String)
    (count : Nat) : (extractSelectedReads fileReads readSet present count).1 ⊆ readSet := by
  refine (extractGo_subset count _ ∅ present).trans ?_
  intro x hx
  rcases Finset.mem_union.mp hx with hx | hx
  · exact absurd hx (Finset.not_mem_empty x)
  · rcases List.mem_toFinset.mp hx with hx2
    rcases List.mem_filter.mp hx2 with ⟨_, hmem⟩
    exact of_decide_eq_true hmem

theorem biUnion_update_of_mem {s : Finset Nat} {f : Nat → Finset String} {o : Nat}
    (ho : o ∈ s) (t : Finset String) :
    s.biUnion (Function.update f o (f o ∪ t)) = s.biUnion f ∪ t := by
  ext x
  simp only [Finset.mem_biUnion, Finset.mem_union]
  constructor
  · rintro ⟨a, ha, hx⟩
    by_cases hao : a = o
    · subst hao
      rw [Function.update_same] at hx
      rcases Finset.mem_union.mp hx with h | h
      · exact Or.inl ⟨a, ha, h⟩
      · exact Or.inr h
    · rw [Function.update_noteq hao] at hx
      exact Or.inl ⟨a, ha, hx⟩
  · rintro (⟨a, ha, hx⟩ | hx)
    · by_cases hao : a = o
      · subst hao
        exact ⟨a, ha, by rw [Function.update_same]; exact Finset.mem_union_left _ hx⟩
      · exact ⟨a, ha, by rw [Function.update_noteq hao]; exact hx⟩
    · exact ⟨o, ho, by rw [Function.update_same]; exact Finset.mem_union_right _ hx⟩

theorem sdiff_sdiff_of_subsets {N0 rs t : Finset String} (ht : t ⊆ rs) (hrs : rs ⊆ N0) :
    N0 \ (rs \ t) = (N0 \ rs) ∪ t := by
  ext x
  simp only [Finset.mem_sdiff, Finset.mem_union, not_and, not_not]
  constructor
  · rintro ⟨hxN, himp⟩
    by_cases hxr : x ∈ rs
    · exact Or.inr (himp hxr)
    · exact Or.inl ⟨hxN, hxr⟩
  · rintro (⟨hxN, hxr⟩ | hxt)
    · exact ⟨hxN, fun hxr2 => absurd hxr2 hxr⟩
    · exact ⟨hrs (ht hxt), fun _ => hxt⟩

theorem step_some (B : Nat) (st : WState) (o : Nat) (fileReads : List String)
    (ho : st.availOut.getLast? = some o) (hf : st.inputs.getLast? = some fileReads) :
    step B st =
      { readSet := st.readSet \
          (extractSelectedReads fileReads st.readSet (st.out o) (B - (st.out o).card)).1,
        inputs := if (extractSelectedReads fileReads st.readSet (st.out o)
            (B - (st.out o).card)).2 then st.inputs.dropLast
          else st.inputs.dropLast ++ [fileReads],
        availOut := if (st.out o ∪ (extractSelectedReads fileReads st.readSet (st.out o)
            (B - (st.out o).card)).1).card < B then st.availOut.dropLast ++ [o]
          else st.availOut.dropLast,
        out := Function.update st.out o (st.out o ∪ (extractSelectedReads fileReads
            st.readSet (st.out o) (B - (st.out o).card)).1) } := by
  rw [step, ho, hf]

theorem step_preserves_inv (N0 : Finset String) (nOut B : Nat) (st : WState)
    (hinv : Inv N0 nOut st) : Inv N0 nOut (step B st) := by
  cases ho : st.availOut.getLast? with
  | none => rw [step, ho]; exact hinv
  | some o =>
    cases hf : st.inputs.getLast? with
    | none => rw [step, ho, hf]; exact hinv
    | some fileReads =>
      rw [step_some B st o fileReads ho hf]
      have honOut : o < nOut := hinv.availLt o (List.mem_of_mem_getLast? ho)
      have hfound : (extractSelectedReads fileReads st.readSet (st.out o)
          (B - (st.out o).card)).1 ⊆ st.readSet :=
        extractSelectedReads_subset _ _ _ _
      refine ⟨?_, ?_, ?_, ?_, ?_, ?_⟩ <;> dsimp only
      · exact Finset.Subset.trans (Finset.sdiff_subset) hinv.subset
      · intro o2 ho2
        split at ho2
        · rcases List.mem_append.mp ho2 with h | h
          · exact hinv.availLt o2 (List.mem_of_mem_dropLast h)
          · rcases List.mem_singleton.mp h with rfl
            exact honOut
        · exact hinv.availLt o2 (List.mem_of_mem_dropLast ho2)
      · intro i
        by_cases hio : i = o
        · subst hio
          rw [Function.update_same]
          refine Finset.disjoint_left.mpr ?_
          intro x hx hx2
          rcases Finset.mem_sdiff.mp hx2 with ⟨hxr, hxnf⟩
          rcases Finset.mem_union.mp hx with hx | hx
          · exact Finset.disjoint_left.mp (hinv.outDisjRS i) hx hxr
          · exact hxnf hx
        · rw [Function.update_noteq hio]
          refine Finset.disjoint_left.mpr ?_
          intro x hx hx2
          exact Finset.disjoint_left.mp (hinv.outDisjRS i) hx (Finset.mem_sdiff.mp hx2).1
      · intro i j hij
        by_cases hio : i = o
        · subst hio
          rw [Function.update_same, Function.update_noteq (Ne.symm hij)]
          refine Finset.disjoint_left.mpr ?_
          intro x hx hxj
          rcases Finset.mem_union.mp hx with hx | hx
          · exact Finset.disjoint_left.mp (hinv.pairwise i j hij) hx hxj
          · exact Finset.disjoint_left.mp (hinv.outDisjRS j) hxj (hfound hx)
        · rw [Function.update_noteq hio]
          by_cases hjo : j = o
          · subst hjo
            rw [Function.update_same]
            refine Finset.disjoint_left.mpr ?_
            intro x hx hxj
            rcases Finset.mem_union.mp hxj with hxj | hxj
            · exact Finset.disjoint_left.mp (hinv.pairwise i j hij) hx hxj
            · exact Finset.disjoint_left.mp (hinv.outDisjRS i) hx (hfound hxj)
          · rw [Function.update_noteq hjo]
            exact hinv.pairwise i j hij
      · intro i hi
        have hio : i ≠ o := by
          intro hcon
          subst hcon
          exact absurd honOut (not_lt.mpr hi)
        rw [Function.update_noteq hio]
        exact hinv.zeroOutside i hi
      · rw [biUnion_update_of_mem (Finset.mem_range.mpr honOut), hinv.union,
          sdiff_sdiff_of_subsets hfound hinv.subset]

theorem initState_inv (N0 : Finset String) (files : List (List String)) (base : String)
    (nOut : Nat) : Inv N0 nOut (initState N0 files base nOut) := by
  constructor
  · exact Finset.Subset.refl N0
  · intro o ho
    rw [initState] at ho
    have := (mem_sortBy (fun i => base ++ toString i ++ ".fast5") (List.range nOut) o).mp
      (List.mem_reverse.mp ho)
    exact List.mem_range.mp this
  · intro i
    exact Finset.disjoint_empty_left _
  · intro i j _
    exact Finset.disjoint_empty_left _
  · intro i _
    rfl
  · rw [initState]
    dsimp only
    rw [Finset.sdiff_self]
    ext x
    simp

theorem stepN_inv (N0 : Finset String) (files : List (List String)) (base : String)
    (nOut B n : Nat) :
    Inv N0 nOut (stepN B (initState N0 files base nOut) n) := by
  induction n with
  | zero => exact initState_inv N0 files base nOut
  | succ k ih =>
    rw [stepN, Function.iterate_succ_apply']
    exact step_preserves_inv N0 nOut B _ ih

end Subset

/-- C1: for a run of the read-subset extraction workflow with `N ≥ 1`
target reads and batch size `B ≥ 1`, `populate_out_files` creates
exactly `ceil(N/B)` output files; and at every point of the
synchronous scheduler's run, the output files' contents are pairwise
disjoint and together hold exactly the reads removed so far from the
pending target set — so every extracted read lands in exactly one
output file, a read already present in an output file is never added
again (contents are disjoint from the pending set), and a read removed
from the pending set is never extracted into a second file. -/
theorem c1_subset_extraction (N0 : Finset String) (B : Nat) (base : String)
    (files : List (List String)) (n : Nat) (_hN : N0.Nonempty) (_hB : 1 ≤ B) :
    (Subset.outFileNames base (Subset.ceilDivNat N0.card B)).length =
      Subset.ceilDivNat N0.card B ∧
    (∀ i j, i ≠ j →
      Disjoint
        ((Subset.stepN B (Subset.initState N0 files base (Subset.ceilDivNat N0.card B)) n).out i)
        ((Subset.stepN B (Subset.initState N0 files base (Subset.ceilDivNat N0.card B)) n).out j)) ∧
    (∀ i, Disjoint
        ((Subset.stepN B (Subset.initState N0 files base (Subset.ceilDivNat N0.card B)) n).out i)
        ((Subset.stepN B (Subset.initState N0 files base (Subset.ceilDivNat N0.card B)) n).readSet)) ∧
    (Finset.range (Subset.ceilDivNat N0.card B)).biUnion
        (Subset.stepN B (Subset.initState N0 files base (Subset.ceilDivNat N0.card B)) n).out =
      N0 \ (Subset.stepN B (Subset.initState N0 files base (Subset.ceilDivNat N0.card B)) n).readSet := by
  have hinv := Subset.stepN_inv N0 files base (Subset.ceilDivNat N0.card B) B n
  refine ⟨?_, hinv.pairwise, hinv.outDisjRS, hinv.union⟩
  rw [Subset.outFileNames, List.length_map, List.length_range]

/-- Witness for C1: three target reads, batch size two, two input
files, four scheduler steps: two output files are created, and after
the run the outputs are disjoint and hold exactly the extracted
reads. -/
theorem c1_subset_extraction_witness :
    ({"a", "b", "c"} : Finset String).Nonempty ∧ 1 ≤ 2 ∧
    (Subset.outFileNames "batch" (Subset.ceilDivNat ({"a", "b", "c"} : Finset String).card 2)).length =
      Subset.ceilDivNat ({"a", "b", "c"} : Finset String).card 2 ∧
    (Finset.range (Subset.ceilDivNat ({"a", "b", "c"} : Finset String).card 2)).biUnion
        (Subset.stepN 2 (Subset.initState {"a", "b", "c"} [["c", "b"], ["a", "x"]] "batch"
          (Subset.ceilDivNat ({"a", "b", "c"} : Finset String).card 2)) 4).out =
      ({"a", "b", "c"} : Finset String) \
        (Subset.stepN 2 (Subset.initState {"a", "b", "c"} [["c", "b"], ["a", "x"]] "batch"
          (Subset.ceilDivNat ({"a", "b", "c"} : Finset String).card 2)) 4).readSet :=
  ⟨by decide, by decide,
   (c1_subset_extraction {"a", "b", "c"} 2 "batch" [["c", "b"], ["a", "x"]] 4
      (by decide) (by decide)).1,
   (c1_subset_extraction {"a", "b", "c"} 2 "batch" [["c", "b"], ["a", "x"]] 4
      (by decide) (by decide)).2.2.2⟩

end OntFast5
